import Mathlib

/-!
# Asynchronous logger (CLog.h / CLog.cpp): queue, formatter, worker and rotation

A shallow embedding of the logger in `src/include/CLog.h` and `src/src/CLog.cpp`.

Modelling conventions.

* A `std::string` is the list of its `char` elements (`CppString`); `size()` is `List.length`.
* `size_t` counters are natural numbers: the byte counter is reset as soon as it reaches the
  threshold, so it stays below the threshold plus one record length.  The model follows the code
  while these sums are below `2^64`.
* `int file_index_` is a natural number: it starts at 0 and is only incremented.  The model
  follows the code while the index is below `INT_MAX`; the increment at `INT_MAX` is signed
  overflow, which C++ leaves undefined, and is not represented.
* The mutex makes every `LogQueue` member function atomic, so each one is a function on the
  queue state.  A `pop` whose wait predicate is false does not return: it is the result `none`.
* Whether `open` succeeds is decided by the environment: the field `unopenable` lists the file
  names that cannot be opened.  After a failed `open` the stream is not open and what is written
  to it is dropped.  Writing to an open stream is taken to succeed.
* `~Logger` runs statement by statement (`teardownStep`), interleaved with the other events.
-/

namespace CLog

/-- A C++ `std::string`, as the list of its `char` elements. -/
abbrev CppString := List Char

/-! ## LogQueue -/

/-- The data members of `class LogQueue` (the mutex and the condition variable carry no data). -/
structure LogQueue where
  queue_ : List CppString
  is_shutdown_ : Bool
deriving DecidableEq, Repr

/-- A freshly constructed queue: empty, `is_shutdown_ = false`. -/
def LogQueue.new : LogQueue := { queue_ := [], is_shutdown_ := false }

/-- `LogQueue::push`: `queue_.push(log)` appends at the tail. -/
def LogQueue.push (q : LogQueue) (log : CppString) : LogQueue :=
  { q with queue_ := q.queue_ ++ [log] }

/-- `LogQueue::shutdown`: `is_shutdown_ = true`. -/
def LogQueue.shutdown (q : LogQueue) : LogQueue :=
  { q with is_shutdown_ := true }

/-- The predicate of `cond_val_.wait` in `LogQueue::pop`:
`!queue_.empty() || this->is_shutdown_`. -/
def LogQueue.waitPred (q : LogQueue) : Bool :=
  !q.queue_.isEmpty || q.is_shutdown_

/-- The loop `while (is_shutdown_ && !queue_.empty()) { msg = queue_.front(); queue_.pop(); }`
of `LogQueue::pop`, on the queue contents and the caller's `msg`. -/
def drainLoop (is_shutdown_ : Bool) : List CppString → CppString → List CppString × CppString
  | [], msg => ([], msg)
  | r :: rest, msg => if is_shutdown_ then drainLoop is_shutdown_ rest r else (r :: rest, msg)

/-- The text `pop` prints on `std::cout` after draining: the fixed notice, `msg`, `std::endl`. -/
def drainNotice (msg : CppString) : CppString :=
  "没有来的及处理msg".toList ++ msg ++ ['\n']

/-- What a returning call of `LogQueue::pop` leaves behind: the returned flag, the queue, the
out-parameter `msg`, and what was printed on `std::cout`. -/
structure PopResult where
  ret : Bool
  queue : LogQueue
  msg : CppString
  cout : List CppString
deriving DecidableEq, Repr

/-- `LogQueue::pop(std::string &msg)`.  `none` when the wait predicate is false (the call stays
blocked in `cond_val_.wait`); otherwise the three exits of the function body in source order. -/
def LogQueue.pop (q : LogQueue) (msg : CppString) : Option PopResult :=
  if !q.waitPred then none
  else if q.is_shutdown_ && q.queue_.isEmpty then
    some { ret := false, queue := q, msg := msg, cout := [] }
  else if q.is_shutdown_ && !q.queue_.isEmpty then
    let d := drainLoop q.is_shutdown_ q.queue_ msg
    some { ret := false, queue := { q with queue_ := d.1 }, msg := d.2, cout := [drainNotice d.2] }
  else
    match q.queue_ with
    | [] => none
    | r :: rest => some { ret := true, queue := { q with queue_ := rest }, msg := r, cout := [] }

/-- One call on a `LogQueue`. -/
inductive QueueOp where
  | push (log : CppString)
  | pop
  | shutdown
deriving DecidableEq, Repr

/-- A queue together with its single consumer's `msg` variable and the history of a run:
the records pushed, the records handed back by pops that returned `true`, and the outcome of
every pop call (`none` for a call that is still waiting). -/
structure QueueRun where
  q : LogQueue
  msg : CppString
  pushed : List CppString
  delivered : List CppString
  rets : List (Option Bool)
deriving DecidableEq, Repr

/-- The start of a run on queue `q` with the consumer's variable holding `msg`. -/
def QueueRun.start (q : LogQueue) (msg : CppString) : QueueRun :=
  { q := q, msg := msg, pushed := [], delivered := [], rets := [] }

/-- One operation of a run.  A pop that blocks leaves queue and `msg` as they are. -/
def QueueRun.step (r : QueueRun) : QueueOp → QueueRun
  | .push log => { r with q := r.q.push log, pushed := r.pushed ++ [log] }
  | .shutdown => { r with q := r.q.shutdown }
  | .pop =>
    match r.q.pop r.msg with
    | none => { r with rets := r.rets ++ [none] }
    | some res =>
      { r with
        q := res.queue
        msg := res.msg
        delivered := if res.ret then r.delivered ++ [res.msg] else r.delivered
        rets := r.rets ++ [some res.ret] }

/-- A sequence of operations, applied left to right. -/
def QueueRun.run (r : QueueRun) (ops : List QueueOp) : QueueRun :=
  ops.foldl QueueRun.step r

/-! ## Message formatting (`Logger::fromatMessage`) -/

/-- The placeholder text searched for by `format.find`. -/
def placeholderText : CppString := ['\x7b', '\x7d']

/-- Left-to-right search for `pat` in the tail `s` of a string, `i` being the index of the head
of `s` in the whole string. -/
def findAux (pat : CppString) : CppString → Nat → Option Nat
  | [], i => if pat.isPrefixOf [] then some i else none
  | c :: cs, i => if pat.isPrefixOf (c :: cs) then some i else findAux pat cs (i + 1)

/-- `s.find(pat, pos)` of `std::string`: the lowest index `>= pos` at which `pat` occurs, or
`none` for `npos`. -/
def cppFind (s pat : CppString) (pos : Nat) : Option Nat :=
  if pos > s.length then none else findAux pat (s.drop pos) pos

/-- `s.substr(pos, n)` of `std::string`; `none` stands for the `std::out_of_range` thrown when
`pos > size()`. -/
def cppSubstr (s : CppString) (pos n : Nat) : Option CppString :=
  if pos > s.length then none else some ((s.drop pos).take n)

/-- `s.substr(pos)` of `std::string` (to the end); `none` when `pos > size()`. -/
def cppSubstrFrom (s : CppString) (pos : Nat) : Option CppString :=
  if pos > s.length then none else some (s.drop pos)

/-- The local variables of `fromatMessage`: the stream `oss`, `arg_index` and `pos`. -/
structure FormatState where
  oss : CppString
  arg_index : Nat
  pos : Nat
deriving DecidableEq, Repr

/-- The loop `while (placeholder != std::string::npos) { ... }` of `fromatMessage`, entered with
the current value of `placeholder`.  The first argument bounds the number of iterations; `none`
is returned when the bound is exhausted or `substr` throws. -/
def formatLoop (format : CppString) (args_strs : List CppString) :
    Nat → Option Nat → FormatState → Option FormatState
  | _, none, st => some st
  | 0, some _, _ => none
  | fuel + 1, some placeholder, st =>
    match cppSubstr format st.pos (placeholder - st.pos) with
    | none => none
    | some piece =>
      let st1 : FormatState :=
        if h : st.arg_index < args_strs.length then
          { st with oss := st.oss ++ piece ++ args_strs[st.arg_index], arg_index := st.arg_index + 1 }
        else
          { st with oss := st.oss ++ piece ++ placeholderText }
      let pos := placeholder + 2
      formatLoop format args_strs fuel (cppFind format placeholderText pos) { st1 with pos := pos }

/-- The loop `while (arg_index < args_strs.size()) oss << " " << args_strs[arg_index++];`, on
the arguments from `arg_index` on. -/
def surplusLoop : List CppString → CppString → CppString
  | [], oss => oss
  | a :: rest, oss => surplusLoop rest (oss ++ [' '] ++ a)

/-- The state of `fromatMessage` after `oss << format.substr(pos)` (line 211): the scan of the
template is complete, unused arguments are not yet appended. -/
def formatBody (format : CppString) (args_strs : List CppString) : Option FormatState :=
  match formatLoop format args_strs (format.length + 1) (cppFind format placeholderText 0)
      { oss := [], arg_index := 0, pos := 0 } with
  | none => none
  | some st =>
    match cppSubstrFrom format st.pos with
    | none => none
    | some tail => some { st with oss := st.oss ++ tail }

/-- `Logger::fromatMessage(format, args...)`, with the arguments already converted by
`to_string_helper` and `now` the string returned by `getCurrentTime()`. -/
def fromatMessage (now : CppString) (format : CppString) (args_strs : List CppString) :
    Option CppString :=
  match formatBody format args_strs with
  | none => none
  | some st =>
    let oss := if st.arg_index < args_strs.length
      then surplusLoop (args_strs.drop st.arg_index) st.oss else st.oss
    some (['['] ++ now ++ [']', '\t'] ++ (oss ++ ['\n']))

/-- The template with its placeholders substituted, as the specification words it: a
left-to-right, non-overlapping scan of the template only; the i-th placeholder becomes the i-th
argument while arguments remain and stays a literal placeholder afterwards. -/
def substituteSpec : CppString → List CppString → CppString
  | [], _ => []
  | '\x7b' :: '\x7d' :: rest, [] => '\x7b' :: '\x7d' :: substituteSpec rest []
  | '\x7b' :: '\x7d' :: rest, a :: args => a ++ substituteSpec rest args
  | c :: rest, args => c :: substituteSpec rest args

/-- The number of non-overlapping placeholders met by a left-to-right scan of the template. -/
def countPlaceholders : CppString → Nat
  | [] => 0
  | '\x7b' :: '\x7d' :: rest => countPlaceholders rest + 1
  | _ :: rest => countPlaceholders rest

/-- The unused-argument suffix as the specification words it: every argument beyond the
placeholders, in order, each preceded by one space. -/
def surplusSpec (format : CppString) (args_strs : List CppString) : CppString :=
  ((args_strs.drop (countPlaceholders format)).map (fun a => ' ' :: a)).flatten

/-! ## Logger -/

/-- The enumeration `LogLevel`.  Its values are exactly the four enumerators, so the `default`
label of the `switch` in `Logger::process` is never taken. -/
inductive LogLevel where
  | DEBUG
  | INFO
  | WARNING
  | ERROR
deriving DecidableEq, Repr

/-- The name of a level as it appears between the brackets of the level tag. -/
def LogLevel.name : LogLevel → CppString
  | .DEBUG => "DEBUG".toList
  | .INFO => "INFO".toList
  | .WARNING => "WARNING".toList
  | .ERROR => "ERROR".toList

/-- The `switch` of `Logger::process`: the initial value of `logLevel_str`. -/
def levelTag : LogLevel → CppString
  | .DEBUG => "[DEBUG] ".toList
  | .INFO => "[INFO] ".toList
  | .WARNING => "[WARNING] ".toList
  | .ERROR => "[ERROR] ".toList

/-- A file this process has opened for appending, with the bytes written to it through the
stream since it was opened. -/
structure LogFile where
  name : CppString
  written : CppString
deriving DecidableEq, Repr

/-- Where the worker thread stands in `while (exit_flag_ == false) { if (pop(msg)) ... }`:
about to test the loop condition, waiting inside `pop`, or past the loop. -/
inductive WorkerPc where
  | loopTest
  | inPop
  | finished
deriving DecidableEq, Repr

/-- Where the thread running `~Logger` stands: before the destructor, after
`exit_flag_ = true` (line 137), after `log_queue_.shutdown()` (line 138), or after the join and
the two closes (lines 139 to 150). -/
inductive TeardownPc where
  | notStarted
  | exitSet
  | queueShut
  | done
deriving DecidableEq, Repr

/-- The data members of `class Logger`, the worker thread (its local `msg` and its position),
the destructor's position, what the logger has done to the outside world (names passed to
`open`, files closed so far, text printed on `std::cout`, datagrams handed to `sendto`, sockets
handed to `close`), and the environment's answer to `open` (the names that cannot be opened). -/
structure Logger where
  log_queue_ : LogQueue
  log_file_ : Option LogFile
  exit_flag_ : Bool
  log_to_console_ : Bool
  log_file_name_ : CppString
  max_file_size_ : Nat
  current_file_size_ : Nat
  file_index_ : Nat
  log_to_udp_ : Bool
  udp_sock_ : Int
  udp_addr_ : Option (CppString × Nat)
  msg : CppString
  worker : WorkerPc
  closed_files : List LogFile
  cout : List CppString
  datagrams : List (Int × Option (CppString × Nat) × CppString)
  closed_socks : List Int
  teardown : TeardownPc
  open_calls : List CppString
  unopenable : List CppString
deriving DecidableEq, Repr

/-- `INT_MAX` of a 32-bit `int`. -/
def INT_MAX : Nat := 2147483647

/-- `Logger::Logger(log_file, log_to_stdout)` when the file opens (the constructor throws
otherwise), with the default member initialisers of the class.  The environment starts with
every later `open` succeeding; statements about other environments override `unopenable`. -/
def Logger.new (log_file : CppString) (log_to_stdout : Bool) : Logger :=
  { log_queue_ := LogQueue.new
    log_file_ := some { name := log_file, written := [] }
    exit_flag_ := false
    log_to_console_ := log_to_stdout
    log_file_name_ := log_file
    max_file_size_ := 1 * 1024 * 1024
    current_file_size_ := 0
    file_index_ := 0
    log_to_udp_ := false
    udp_sock_ := -1
    udp_addr_ := none
    msg := []
    worker := .loopTest
    closed_files := []
    cout := []
    datagrams := []
    closed_socks := []
    teardown := .notStarted
    open_calls := [log_file]
    unopenable := [] }

/-- What `oss << file_index_` prints for a non-negative index: its decimal digits. -/
def decimal (n : Nat) : CppString := Nat.toDigits 10 n

/-- The name built in `rotateLogFile`: `log_file_name_ << "_" << index << ".log"`. -/
def rotatedName (base : CppString) (index : Nat) : CppString :=
  base ++ ['_'] ++ decimal index ++ ".log".toList

/-- `Logger::rotateLogFile`: close the stream if it is open, build the name from the index,
increment the index, call `open` on the name (the stream is open afterwards only if the
environment lets that name be opened), reset the byte counter.  The index is incremented as a
natural number: this is the code's `int` while the index is below `INT_MAX`, and a statement
that depends on the incremented value says so. -/
def Logger.rotateLogFile (s : Logger) : Logger :=
  let s1 : Logger :=
    match s.log_file_ with
    | some f => { s with log_file_ := none, closed_files := s.closed_files ++ [f] }
    | none => s
  { s1 with
    log_file_ :=
      if rotatedName s1.log_file_name_ s1.file_index_ ∈ s1.unopenable then none
      else some { name := rotatedName s1.log_file_name_ s1.file_index_, written := [] }
    open_calls := s1.open_calls ++ [rotatedName s1.log_file_name_ s1.file_index_]
    file_index_ := s1.file_index_ + 1
    current_file_size_ := 0 }

/-- `this->log_file_ << msg`: appended to the open file, dropped when the stream is not open. -/
def Logger.writeFile (s : Logger) (msg : CppString) : Logger :=
  { s with log_file_ := s.log_file_.map (fun f => { f with written := f.written ++ msg }) }

/-- The statements of a worker iteration between a successful `pop` and the rotation test
(lines 104 to 124): write `msg` to the file, copy it to the console and to the UDP socket when
these are enabled, add its size to the byte counter. -/
def Logger.writeRecord (s0 : Logger) : Logger :=
  let s1 := s0.writeFile s0.msg
  let s2 : Logger := if s1.log_to_console_ then { s1 with cout := s1.cout ++ [s1.msg] } else s1
  let s3 : Logger :=
    if s2.log_to_udp_ && decide (s2.udp_sock_ ≥ 0) then
      { s2 with datagrams := s2.datagrams ++ [(s2.udp_sock_, s2.udp_addr_, s2.msg)] }
    else s2
  { s3 with current_file_size_ := s3.current_file_size_ + s3.msg.length }

/-- The body of the worker's `while` loop from the call of `pop` on.  `none` when `pop` does not
return. -/
def Logger.workerBody (s : Logger) : Option Logger :=
  match s.log_queue_.pop s.msg with
  | none => none
  | some res =>
    let s0 : Logger := { s with log_queue_ := res.queue, msg := res.msg, cout := s.cout ++ res.cout }
    if res.ret then
      let s4 := s0.writeRecord
      some (if s4.current_file_size_ ≥ s4.max_file_size_ then s4.rotateLogFile else s4)
    else some s0

/-- The worker calls `pop` and, if it returns, finishes the iteration. -/
def Logger.enterPop (s : Logger) : Logger :=
  match s.workerBody with
  | none => { s with worker := .inPop }
  | some s1 => { s1 with worker := .loopTest }

/-- One scheduling step of the worker thread: test the loop condition and run one iteration, or
resume a `pop` that was waiting, or stay past the loop. -/
def Logger.workerStep (s : Logger) : Logger :=
  match s.worker with
  | .finished => s
  | .inPop => s.enterPop
  | .loopTest => if s.exit_flag_ = false then s.enterPop else { s with worker := .finished }

/-- The worker thread run for at most the given number of steps, until it is past its loop. -/
def Logger.runWorker : Nat → Logger → Logger
  | 0, s => s
  | n + 1, s => if s.worker = .finished then s else Logger.runWorker n s.workerStep

/-- `Logger::log_exit`. -/
def Logger.log_exit (s : Logger) : Logger :=
  { s with exit_flag_ := true }

/-- `Logger::closeUdp`. -/
def Logger.closeUdp (s : Logger) : Logger :=
  if s.udp_sock_ ≥ 0 then
    { s with closed_socks := s.closed_socks ++ [s.udp_sock_], udp_sock_ := -1, log_to_udp_ := false }
  else s

/-- `Logger::logToUdp(ip, port)`, `sock` being the value returned by `socket(...)`. -/
def Logger.logToUdp (s : Logger) (ip : CppString) (port : Nat) (sock : Int) : Logger :=
  let s1 : Logger := { s with udp_sock_ := sock }
  if s1.udp_sock_ < 0 then s1
  else { s1 with udp_addr_ := some (ip, port), log_to_udp_ := true }

/-- One statement of `Logger::~Logger`, run by the destroying thread: `exit_flag_ = true`; then
`log_queue_.shutdown()`; then the join, which waits (changes nothing) until the worker is past
its loop, followed by closing the file and `closeUdp()`. -/
def Logger.teardownStep (s : Logger) : Logger :=
  match s.teardown with
  | .notStarted => { s with exit_flag_ := true, teardown := .exitSet }
  | .exitSet => { s with log_queue_ := s.log_queue_.shutdown, teardown := .queueShut }
  | .queueShut =>
    if s.worker = .finished then
      let s4 : Logger :=
        match s.log_file_ with
        | some f => { s with log_file_ := none, closed_files := s.closed_files ++ [f] }
        | none => s
      { s4.closeUdp with teardown := .done }
    else s
  | .done => s

/-- `Logger::~Logger` run from its first statement to its last with no other event in between.
With the exit flag set and the queue shut down the worker is past its loop after at most two
steps (a pending `pop` returns, then the loop test fails), which is what `join` waits for. -/
def Logger.destroy (s : Logger) : Logger :=
  let s1 : Logger := { s with exit_flag_ := true }
  let s2 : Logger := { s1 with log_queue_ := s1.log_queue_.shutdown }
  let s3 := s2.runWorker 2
  let s4 : Logger :=
    match s3.log_file_ with
    | some f => { s3 with log_file_ := none, closed_files := s3.closed_files ++ [f] }
    | none => s3
  s4.closeUdp

/-- `Logger::process(level, format, args...)`, reached from `Logger::log`: the record pushed is
the level tag, `" \t"`, and the formatted message.  `none` when formatting throws. -/
def Logger.process (s : Logger) (now : CppString) (level : LogLevel) (format : CppString)
    (args_strs : List CppString) : Option Logger :=
  let logLevel_str := levelTag level ++ [' ', '\t']
  match fromatMessage now format args_strs with
  | none => none
  | some m => some { s with log_queue_ := s.log_queue_.push (logLevel_str ++ m) }

/-- `Logger::log(logLevel, format, args...)`. -/
def Logger.log (s : Logger) (now : CppString) (logLevel : LogLevel) (format : CppString)
    (args_strs : List CppString) : Option Logger :=
  s.process now logLevel format args_strs

/-- One event in the life of a logger: a call of its public interface by some thread, a
scheduling step of its worker thread, its destruction in one go, or one statement of its
destruction. -/
inductive LoggerOp where
  | log (now : CppString) (logLevel : LogLevel) (format : CppString) (args_strs : List CppString)
  | log_exit
  | logToUdp (ip : CppString) (port : Nat) (sock : Int)
  | closeUdp
  | workerStep
  | destroy
  | teardownStep
deriving DecidableEq, Repr

/-- The effect of one event.  A `log` call whose formatting throws leaves the logger as it is. -/
def Logger.step (s : Logger) : LoggerOp → Logger
  | .log now logLevel format args_strs => (s.log now logLevel format args_strs).getD s
  | .log_exit => s.log_exit
  | .logToUdp ip port sock => s.logToUdp ip port sock
  | .closeUdp => s.closeUdp
  | .workerStep => s.workerStep
  | .destroy => s.destroy
  | .teardownStep => s.teardownStep

/-- A sequence of events, applied left to right. -/
def Logger.run (s : Logger) (ops : List LoggerOp) : Logger :=
  ops.foldl Logger.step s

/-- The names of all files this process has called `open` on, in the order of the calls: the
base file first, then one name per rotation. -/
def Logger.openedNames (s : Logger) : List CppString :=
  s.open_calls

/-- All bytes this process has written to its files: the files in the order they were opened,
the bytes of each in the order they were written. -/
def Logger.allWritten (s : Logger) : CppString :=
  ((s.closed_files ++ s.log_file_.toList).map LogFile.written).flatten

/-- A small logger for concrete runs: base file `b`, threshold 5 instead of 1 MiB, and the
records `abc`, `defg`, `h` pushed and not yet consumed. -/
def exampleLogger : Logger :=
  { Logger.new ['b'] false with
    max_file_size_ := 5
    log_queue_ := { queue_ := ["abc".toList, "defg".toList, "h".toList], is_shutdown_ := false } }

/-! ## Invariants and relations used in the proofs -/

/-- The invariant behind FIFO delivery: what was delivered is a prefix of what was pushed, and
while the queue is open the rest of what was pushed is exactly the queue contents. -/
def QueueRun.Fifo (r : QueueRun) : Prop :=
  r.delivered <+: r.pushed ∧ (r.q.is_shutdown_ = false → r.pushed = r.delivered ++ r.q.queue_)

/-- Between `s` and `t` no file was opened: same base name, same opened files, same index. -/
def Logger.SameFiles (s t : Logger) : Prop :=
  t.log_file_name_ = s.log_file_name_ ∧ t.openedNames = s.openedNames ∧
    t.file_index_ = s.file_index_

/-- Between `s` and `t` exactly one rotation took place: the file named after the index of `s`
was opened and the index advanced by one. -/
def Logger.Rotated (s t : Logger) : Prop :=
  t.log_file_name_ = s.log_file_name_ ∧
    t.openedNames = s.openedNames ++ [rotatedName s.log_file_name_ s.file_index_] ∧
    t.file_index_ = s.file_index_ + 1

/-- The files opened so far are the base file and the rotated files numbered from 0 up to the
rotation index, in this order. -/
def Logger.NamesOk (s : Logger) : Prop :=
  s.openedNames =
    s.log_file_name_ :: (List.range s.file_index_).map (rotatedName s.log_file_name_)

/-- The state a rotation leaves, written as one update of the state before it. -/
def Logger.rotated (s : Logger) : Logger :=
  { s with
    log_file_ :=
      if rotatedName s.log_file_name_ s.file_index_ ∈ s.unopenable then none
      else some { name := rotatedName s.log_file_name_ s.file_index_, written := [] }
    closed_files := s.closed_files ++ s.log_file_.toList
    open_calls := s.open_calls ++ [rotatedName s.log_file_name_ s.file_index_]
    file_index_ := s.file_index_ + 1
    current_file_size_ := 0 }

/-- The byte counter is below the threshold and, while a file is open, equals the number of
bytes written to that file. -/
def Logger.CounterOk (s : Logger) : Prop :=
  s.current_file_size_ < s.max_file_size_ ∧
    ∀ f, s.log_file_ = some f → f.written.length = s.current_file_size_

/-! ## Facts about `LogQueue::pop` -/

theorem drainLoop_true (l : List CppString) (msg : CppString) :
    drainLoop true l msg = ([], (msg :: l).getLast (List.cons_ne_nil msg l)) := by
  induction l generalizing msg with
  | nil => rfl
  | cons r rest ih =>
    rw [List.getLast_cons (List.cons_ne_nil r rest)]
    simp [drainLoop, ih]

theorem pop_open_nil (msg : CppString) :
    LogQueue.pop { queue_ := [], is_shutdown_ := false } msg = none := by
  simp [LogQueue.pop, LogQueue.waitPred]

theorem pop_open_cons (r : CppString) (rest : List CppString) (msg : CppString) :
    LogQueue.pop { queue_ := r :: rest, is_shutdown_ := false } msg =
      some { ret := true, queue := { queue_ := rest, is_shutdown_ := false }, msg := r,
             cout := [] } := by
  simp [LogQueue.pop, LogQueue.waitPred]

theorem pop_shut_nil (msg : CppString) :
    LogQueue.pop { queue_ := [], is_shutdown_ := true } msg =
      some { ret := false, queue := { queue_ := [], is_shutdown_ := true }, msg := msg,
             cout := [] } := by
  simp [LogQueue.pop, LogQueue.waitPred]

theorem pop_shut_cons (r : CppString) (rest : List CppString) (msg : CppString) :
    LogQueue.pop { queue_ := r :: rest, is_shutdown_ := true } msg =
      some { ret := false, queue := { queue_ := [], is_shutdown_ := true },
             msg := (r :: rest).getLast (List.cons_ne_nil r rest),
             cout := [drainNotice ((r :: rest).getLast (List.cons_ne_nil r rest))] } := by
  simp [LogQueue.pop, LogQueue.waitPred, drainLoop_true]

/-- A pop that returns `false` was made on a queue that had been shut down, and leaves the
queue empty. -/
theorem pop_false_shut (q : LogQueue) (msg : CppString) (res : PopResult)
    (h : q.pop msg = some res) (hret : res.ret = false) :
    q.is_shutdown_ = true ∧ res.queue = { queue_ := [], is_shutdown_ := true } := by
  obtain ⟨l, b⟩ := q
  cases b <;> cases l <;>
    simp [pop_open_nil, pop_open_cons, pop_shut_nil, pop_shut_cons] at h <;>
    subst h <;> simp_all

/-- A pop that returns `true` was made on an open queue, and hands back its head. -/
theorem pop_true_open (q : LogQueue) (msg : CppString) (res : PopResult)
    (h : q.pop msg = some res) (hret : res.ret = true) :
    q.is_shutdown_ = false ∧ q.queue_ = res.msg :: res.queue.queue_ ∧
      res.queue.is_shutdown_ = false := by
  obtain ⟨l, b⟩ := q
  cases b <;> cases l <;>
    simp [pop_open_nil, pop_open_cons, pop_shut_nil, pop_shut_cons] at h <;>
    subst h <;> simp_all

/-! ## Runs of queue operations -/

theorem QueueRun.run_nil (r : QueueRun) : r.run [] = r := rfl

theorem QueueRun.run_cons (r : QueueRun) (op : QueueOp) (ops : List QueueOp) :
    r.run (op :: ops) = (r.step op).run ops := rfl

theorem QueueRun.run_append (r : QueueRun) (ops1 ops2 : List QueueOp) :
    r.run (ops1 ++ ops2) = (r.run ops1).run ops2 := by
  simp [QueueRun.run, List.foldl_append]

theorem QueueRun.Fifo_step (r : QueueRun) (op : QueueOp) (h : r.Fifo) : (r.step op).Fifo := by
  obtain ⟨hpre, hopen⟩ := h
  cases op with
  | push log =>
    refine ⟨hpre.trans (List.prefix_append _ _), ?_⟩
    intro hs
    simp only [QueueRun.step, LogQueue.push] at hs ⊢
    rw [hopen hs, List.append_assoc]
  | shutdown =>
    exact ⟨hpre, by simp [QueueRun.step, LogQueue.shutdown]⟩
  | pop =>
    simp only [QueueRun.step]
    cases hp : r.q.pop r.msg with
    | none => exact ⟨hpre, hopen⟩
    | some res =>
      cases hret : res.ret with
      | false =>
        have hq := (pop_false_shut r.q r.msg res hp hret).2
        simp [QueueRun.Fifo, hq, hpre, hret]
      | true =>
        obtain ⟨h1, h2, h3⟩ := pop_true_open r.q r.msg res hp hret
        have hpush : r.pushed = (r.delivered ++ [res.msg]) ++ res.queue.queue_ := by
          rw [hopen h1, h2]; simp
        refine ⟨?_, fun _ => ?_⟩
        · simp only [hret, if_true]
          rw [hpush]
          exact List.prefix_append _ _
        · simpa [hret] using hpush

theorem QueueRun.Fifo_run (r : QueueRun) (ops : List QueueOp) (h : r.Fifo) : (r.run ops).Fifo := by
  induction ops generalizing r with
  | nil => exact h
  | cons op ops ih => exact ih _ (QueueRun.Fifo_step r op h)

theorem QueueRun.run_pushes (r : QueueRun) (rs : List CppString) :
    r.run (rs.map QueueOp.push) =
      { r with q := { r.q with queue_ := r.q.queue_ ++ rs }, pushed := r.pushed ++ rs } := by
  induction rs generalizing r with
  | nil => simp [QueueRun.run]
  | cons a rs ih =>
    rw [List.map_cons, QueueRun.run_cons, ih]
    simp [QueueRun.step, LogQueue.push]

theorem QueueRun.run_pops_open (l : List CppString) (r : QueueRun)
    (hq : r.q = { queue_ := l, is_shutdown_ := false }) :
    (r.run (List.replicate l.length QueueOp.pop)).delivered = r.delivered ++ l ∧
    (r.run (List.replicate l.length QueueOp.pop)).rets =
      r.rets ++ List.replicate l.length (some true) ∧
    (r.run (List.replicate l.length QueueOp.pop)).q = { queue_ := [], is_shutdown_ := false } ∧
    (r.run (List.replicate l.length QueueOp.pop)).pushed = r.pushed := by
  induction l generalizing r with
  | nil => simp [QueueRun.run, hq]
  | cons a l ih =>
    have hstep : r.step QueueOp.pop =
        { r with q := { queue_ := l, is_shutdown_ := false }, msg := a,
                 delivered := r.delivered ++ [a], rets := r.rets ++ [some true] } := by
      simp [QueueRun.step, hq, pop_open_cons]
    rw [List.length_cons, List.replicate_succ, QueueRun.run_cons, hstep]
    obtain ⟨h1, h2, h3, h4⟩ := ih
      { r with q := { queue_ := l, is_shutdown_ := false }, msg := a,
               delivered := r.delivered ++ [a], rets := r.rets ++ [some true] } rfl
    refine ⟨?_, ?_, h3, h4⟩
    · rw [h1]; simp
    · rw [h2]; simp [List.replicate_succ]

/-- C1 (FIFO).  For every sequence of push, pop and shutdown calls on an initially empty, open
queue, the records handed back by the pops that returned true are, in order, a prefix of the
records pushed; and on a queue that is never shut down, pushing `rs` and then popping
`rs.length` times returns exactly `rs` in push order, every pop returning true. -/
theorem C1_fifo_prefix :
    (∀ (msg : CppString) (ops : List QueueOp),
      ((QueueRun.start LogQueue.new msg).run ops).delivered <+:
        ((QueueRun.start LogQueue.new msg).run ops).pushed) ∧
    (∀ (msg : CppString) (rs : List CppString),
      ((QueueRun.start LogQueue.new msg).run
          (rs.map QueueOp.push ++ List.replicate rs.length QueueOp.pop)).delivered = rs ∧
      ((QueueRun.start LogQueue.new msg).run
          (rs.map QueueOp.push ++ List.replicate rs.length QueueOp.pop)).rets =
        List.replicate rs.length (some true) ∧
      ((QueueRun.start LogQueue.new msg).run
          (rs.map QueueOp.push ++ List.replicate rs.length QueueOp.pop)).q.queue_ = []) := by
  constructor
  · intro msg ops
    have h0 : (QueueRun.start LogQueue.new msg).Fifo := by
      simp [QueueRun.Fifo, QueueRun.start, LogQueue.new]
    exact (QueueRun.Fifo_run _ ops h0).1
  · intro msg rs
    rw [QueueRun.run_append, QueueRun.run_pushes]
    obtain ⟨h1, h2, h3, _⟩ := QueueRun.run_pops_open rs
      { QueueRun.start LogQueue.new msg with
        q := { (QueueRun.start LogQueue.new msg).q with
               queue_ := (QueueRun.start LogQueue.new msg).q.queue_ ++ rs },
        pushed := (QueueRun.start LogQueue.new msg).pushed ++ rs }
      (by simp [QueueRun.start, LogQueue.new])
    refine ⟨?_, ?_, ?_⟩
    · rw [h1]; simp [QueueRun.start]
    · rw [h2]; simp [QueueRun.start]
    · rw [h3]

/-! ## Pops on a queue that has been shut down -/

theorem QueueRun.shut_step (r : QueueRun) (op : QueueOp) (hs : r.q.is_shutdown_ = true) :
    (r.step op).q.is_shutdown_ = true ∧ (r.step op).delivered = r.delivered := by
  cases op with
  | push log => simp [QueueRun.step, LogQueue.push, hs]
  | shutdown => simp [QueueRun.step, LogQueue.shutdown]
  | pop =>
    simp only [QueueRun.step]
    cases hp : r.q.pop r.msg with
    | none => exact ⟨hs, rfl⟩
    | some res =>
      cases hret : res.ret with
      | false =>
        have hq := (pop_false_shut r.q r.msg res hp hret).2
        simp [hq, hret]
      | true =>
        have h1 := (pop_true_open r.q r.msg res hp hret).1
        rw [hs] at h1
        exact absurd h1 (by decide)

theorem QueueRun.shut_run (r : QueueRun) (ops : List QueueOp) (hs : r.q.is_shutdown_ = true) :
    (r.run ops).q.is_shutdown_ = true ∧ (r.run ops).delivered = r.delivered := by
  induction ops generalizing r with
  | nil => exact ⟨hs, rfl⟩
  | cons op ops ih =>
    obtain ⟨h1, h2⟩ := QueueRun.shut_step r op hs
    obtain ⟨h3, h4⟩ := ih (r.step op) h1
    exact ⟨h3, h4.trans h2⟩

theorem QueueRun.run_pops_closed (n : Nat) (r : QueueRun)
    (hq : r.q = { queue_ := [], is_shutdown_ := true }) :
    r.run (List.replicate n QueueOp.pop) =
      { r with rets := r.rets ++ List.replicate n (some false) } := by
  induction n generalizing r with
  | zero => simp [QueueRun.run]
  | succ n ih =>
    have hstep : r.step QueueOp.pop = { r with rets := r.rets ++ [some false] } := by
      simp [QueueRun.step, hq, pop_shut_nil]
    rw [List.replicate_succ, QueueRun.run_cons, hstep,
      ih { r with rets := r.rets ++ [some false] } hq]
    simp [List.replicate_succ]

/-- C2, as the claim states it, fails: on a queue that holds one record and has been shut down
the wait predicate is true and the queue is non-empty, yet `pop` returns false. -/
theorem C2_counterexample :
    LogQueue.waitPred { queue_ := [['a']], is_shutdown_ := true } = true ∧
    ({ queue_ := [['a']], is_shutdown_ := true } : LogQueue).queue_ ≠ [] ∧
    (LogQueue.pop { queue_ := [['a']], is_shutdown_ := true } []).map PopResult.ret =
      some false := by
  decide

/-- C2, amended.  A returning `pop` returns false exactly when shutdown has been signaled
(whether the queue is then empty or not); and on every queue that is non-empty and not shut
down, `pop` returns true with the head record and removes it from the queue. -/
theorem C2_pop_false_iff_shutdown (q : LogQueue) (msg : CppString) :
    (∀ res, q.pop msg = some res → (res.ret = false ↔ q.is_shutdown_ = true)) ∧
    (∀ r rest, q.queue_ = r :: rest → q.is_shutdown_ = false →
      q.pop msg = some { ret := true, queue := { q with queue_ := rest }, msg := r,
                         cout := [] }) := by
  constructor
  · intro res h
    constructor
    · exact fun hret => (pop_false_shut q msg res h hret).1
    · intro hs
      cases hret : res.ret with
      | false => rfl
      | true =>
        have h1 := (pop_true_open q msg res h hret).1
        rw [hs] at h1
        exact absurd h1 (by decide)
  · intro r rest hq hs
    obtain ⟨l, b⟩ := q
    simp only at hq hs
    subst hq hs
    exact pop_open_cons r rest msg

/-- The amended C2 at concrete queues: an open queue holding `"a"` hands it back with true; on
the shut-down queue holding `"a"` the returned flag is false. -/
theorem C2_pop_false_iff_shutdown_witness :
    LogQueue.pop { queue_ := [['a']], is_shutdown_ := false } [] =
      some { ret := true, queue := { queue_ := [], is_shutdown_ := false }, msg := ['a'],
             cout := [] } ∧
    (({ ret := false, queue := { queue_ := [], is_shutdown_ := true }, msg := ['a'],
        cout := [drainNotice ['a']] } : PopResult).ret = false ↔
      ({ queue_ := [['a']], is_shutdown_ := true } : LogQueue).is_shutdown_ = true) :=
  ⟨(C2_pop_false_iff_shutdown { queue_ := [['a']], is_shutdown_ := false } []).2 ['a'] [] rfl rfl,
   (C2_pop_false_iff_shutdown { queue_ := [['a']], is_shutdown_ := true } []).1 _
     (pop_shut_cons ['a'] [] [])⟩

/-- C3 (closed-queue law).  On the queue that has been shut down and is empty, the wait
predicate of `pop` is already true, `pop` returns false and leaves the queue and the caller's
`msg` as they were; hence any number of consecutive pops all return false, change nothing and
hand back no record. -/
theorem C3_closed_queue_law (msg : CppString) :
    LogQueue.waitPred { queue_ := [], is_shutdown_ := true } = true ∧
    LogQueue.pop { queue_ := [], is_shutdown_ := true } msg =
      some { ret := false, queue := { queue_ := [], is_shutdown_ := true }, msg := msg,
             cout := [] } ∧
    ∀ n : Nat,
      ((QueueRun.start { queue_ := [], is_shutdown_ := true } msg).run
          (List.replicate n QueueOp.pop)).rets = List.replicate n (some false) ∧
      ((QueueRun.start { queue_ := [], is_shutdown_ := true } msg).run
          (List.replicate n QueueOp.pop)).q = { queue_ := [], is_shutdown_ := true } ∧
      ((QueueRun.start { queue_ := [], is_shutdown_ := true } msg).run
          (List.replicate n QueueOp.pop)).msg = msg ∧
      ((QueueRun.start { queue_ := [], is_shutdown_ := true } msg).run
          (List.replicate n QueueOp.pop)).delivered = [] := by
  refine ⟨rfl, pop_shut_nil msg, fun n => ?_⟩
  rw [QueueRun.run_pops_closed n _ rfl]
  simp [QueueRun.start]

/-- C4 (drain on shutdown).  On a queue that has been shut down and holds `r :: rest`, a single
`pop` returns false, leaves the queue empty and sets the caller's `msg` to the last record; and
whatever operations follow that pop, no pop ever returns true, so none of the drained records
(nor any other) is handed back by a successful pop. -/
theorem C4_drain_on_shutdown (r : CppString) (rest : List CppString) (msg : CppString) :
    LogQueue.pop { queue_ := r :: rest, is_shutdown_ := true } msg =
      some { ret := false, queue := { queue_ := [], is_shutdown_ := true },
             msg := (r :: rest).getLast (List.cons_ne_nil r rest),
             cout := [drainNotice ((r :: rest).getLast (List.cons_ne_nil r rest))] } ∧
    ∀ ops : List QueueOp,
      ((QueueRun.start { queue_ := r :: rest, is_shutdown_ := true } msg).run
          (QueueOp.pop :: ops)).delivered = [] := by
  refine ⟨pop_shut_cons r rest msg, fun ops => ?_⟩
  rw [QueueRun.run_cons]
  have h := QueueRun.shut_step (QueueRun.start { queue_ := r :: rest, is_shutdown_ := true } msg)
    QueueOp.pop rfl
  rw [(QueueRun.shut_run _ ops h.1).2, h.2]
  rfl

/-! ## The placeholder scan -/

theorem isPrefixOf_placeholder (c : Char) (cs : CppString) :
    placeholderText.isPrefixOf (c :: cs) = true ↔ ∃ rest, c = '\x7b' ∧ cs = '\x7d' :: rest := by
  cases cs with
  | nil => simp [placeholderText, List.isPrefixOf]
  | cons d ds =>
    simp only [placeholderText, List.isPrefixOf, Bool.and_true, Bool.and_eq_true, beq_iff_eq,
      List.cons.injEq, exists_and_left, exists_eq', and_true]
    constructor <;> rintro ⟨rfl, rfl⟩ <;> exact ⟨rfl, rfl⟩

theorem substituteSpec_miss (c : Char) (cs : CppString) (args : List CppString)
    (h : ¬ placeholderText.isPrefixOf (c :: cs) = true) :
    substituteSpec (c :: cs) args = c :: substituteSpec cs args := by
  rw [isPrefixOf_placeholder] at h
  apply substituteSpec.eq_4
  · intro rest hc hcs _
    exact h ⟨rest, hc, hcs⟩
  · intro rest a as hc hcs _
    exact h ⟨rest, hc, hcs⟩

theorem countPlaceholders_miss (c : Char) (cs : CppString)
    (h : ¬ placeholderText.isPrefixOf (c :: cs) = true) :
    countPlaceholders (c :: cs) = countPlaceholders cs := by
  rw [isPrefixOf_placeholder] at h
  apply countPlaceholders.eq_3
  intro rest hc hcs
  exact h ⟨rest, hc, hcs⟩

/-- When the search finds nothing, the text holds no placeholder. -/
theorem findAux_none (s : CppString) (i : Nat) (h : findAux placeholderText s i = none) :
    (∀ args, substituteSpec s args = s) ∧ countPlaceholders s = 0 := by
  induction s generalizing i with
  | nil => exact ⟨fun _ => rfl, rfl⟩
  | cons c cs ih =>
    by_cases hp : placeholderText.isPrefixOf (c :: cs) = true
    · simp [findAux, hp] at h
    · simp only [findAux, hp, if_false] at h
      obtain ⟨h1, h2⟩ := ih (i + 1) h
      refine ⟨fun args => ?_, ?_⟩
      · rw [substituteSpec_miss c cs args hp, h1]
      · rw [countPlaceholders_miss c cs hp, h2]

/-- When the search finds index `p`, the text splits at `p` into a part without placeholder,
the placeholder, and the rest. -/
theorem findAux_some (s : CppString) (i p : Nat) (h : findAux placeholderText s i = some p) :
    ∃ mid rest, s = mid ++ '\x7b' :: '\x7d' :: rest ∧ p = i + mid.length ∧
      (∀ args, substituteSpec s args = mid ++ substituteSpec ('\x7b' :: '\x7d' :: rest) args) ∧
      countPlaceholders s = countPlaceholders rest + 1 := by
  induction s generalizing i with
  | nil => simp [findAux, placeholderText, List.isPrefixOf] at h
  | cons c cs ih =>
    by_cases hp : placeholderText.isPrefixOf (c :: cs) = true
    · simp only [findAux, hp, if_true, Option.some.injEq] at h
      obtain ⟨rest, rfl, rfl⟩ := (isPrefixOf_placeholder c cs).1 hp
      exact ⟨[], rest, rfl, by simp [h], fun _ => rfl, rfl⟩
    · simp only [findAux, hp, if_false] at h
      obtain ⟨mid, rest, h1, h2, h3, h4⟩ := ih (i + 1) h
      refine ⟨c :: mid, rest, by simp [h1], by simp [h2]; omega, fun args => ?_, ?_⟩
      · rw [substituteSpec_miss c cs args hp, h3]; rfl
      · rw [countPlaceholders_miss c cs hp, h4]

theorem cppFind_split (pre suf : CppString) :
    cppFind (pre ++ suf) placeholderText pre.length = findAux placeholderText suf pre.length := by
  simp [cppFind]

theorem surplusLoop_eq (l : List CppString) (oss : CppString) :
    surplusLoop l oss = oss ++ (l.map (fun a => ' ' :: a)).flatten := by
  induction l generalizing oss with
  | nil => simp [surplusLoop]
  | cons a l ih => simp [surplusLoop, ih]

/-- The placeholder loop never runs out of iterations and never makes `substr` throw; it leaves
the substituted text scanned so far in `oss` and has used as many arguments as it met
placeholders, up to the number of arguments. -/
theorem formatLoop_spec (args : List CppString) (fuel : Nat) (pre suf : CppString)
    (st : FormatState) (hpos : st.pos = pre.length) (hfuel : suf.length < fuel)
    (hidx : st.arg_index ≤ args.length) :
    ∃ st1, formatLoop (pre ++ suf) args fuel (cppFind (pre ++ suf) placeholderText st.pos) st
        = some st1 ∧
      st1.pos ≤ (pre ++ suf).length ∧
      st1.oss ++ (pre ++ suf).drop st1.pos
        = st.oss ++ substituteSpec suf (args.drop st.arg_index) ∧
      st1.arg_index = min (st.arg_index + countPlaceholders suf) args.length := by
  induction fuel generalizing pre suf st with
  | zero => omega
  | succ fuel ih =>
    rw [hpos, cppFind_split]
    cases hf : findAux placeholderText suf pre.length with
    | none =>
      obtain ⟨h1, h2⟩ := findAux_none suf _ hf
      refine ⟨st, by simp [formatLoop], by simp [hpos], ?_, ?_⟩
      · simp [hpos, h1]
      · rw [h2]; omega
    | some p =>
      obtain ⟨mid, rest, rfl, hp, h3, h4⟩ := findAux_some suf _ p hf
      have hsub : cppSubstr (pre ++ (mid ++ '\x7b' :: '\x7d' :: rest)) st.pos (p - st.pos)
          = some mid := by
        simp [cppSubstr, hpos, hp]
      have hsplit : pre ++ (mid ++ '\x7b' :: '\x7d' :: rest)
          = (pre ++ mid ++ placeholderText) ++ rest := by
        simp [placeholderText]
      have hlen : (pre ++ mid ++ placeholderText).length = p + 2 := by
        simp [placeholderText, hp]; omega
      simp only [List.length_append, List.length_cons] at hfuel
      simp only [formatLoop, hsub]
      by_cases hlt : st.arg_index < args.length
      · simp only [hlt, dite_true]
        obtain ⟨st1, e1, e2, e3, e4⟩ := ih (pre ++ mid ++ placeholderText) rest
          { oss := st.oss ++ mid ++ args[st.arg_index], arg_index := st.arg_index + 1,
            pos := p + 2 } hlen.symm (by omega) (by simpa using hlt)
        rw [← hsplit] at e1 e2 e3
        refine ⟨st1, e1, e2, ?_, ?_⟩
        · rw [e3, h3, List.drop_eq_getElem_cons hlt, substituteSpec.eq_3]
          simp
        · rw [e4, h4]; simp only; omega
      · simp only [hlt, dite_false]
        obtain ⟨st1, e1, e2, e3, e4⟩ := ih (pre ++ mid ++ placeholderText) rest
          { oss := st.oss ++ mid ++ placeholderText, arg_index := st.arg_index,
            pos := p + 2 } hlen.symm (by omega) hidx
        rw [← hsplit] at e1 e2 e3
        refine ⟨st1, e1, e2, ?_, ?_⟩
        · have hnil : args.drop st.arg_index = [] := List.drop_eq_nil_of_le (by omega)
          rw [e3, h3, hnil, substituteSpec.eq_2]
          simp [placeholderText]
        · rw [e4, h4]; simp only; omega

/-- The scan of `fromatMessage` always completes: it yields the substituted template and the
number of arguments used. -/
theorem formatBody_spec (format : CppString) (args : List CppString) :
    ∃ st, formatBody format args = some st ∧ st.oss = substituteSpec format args ∧
      st.arg_index = min (countPlaceholders format) args.length := by
  obtain ⟨st1, e1, e2, e3, e4⟩ := formatLoop_spec args (format.length + 1) [] format
    { oss := [], arg_index := 0, pos := 0 } rfl (by omega) (by simp)
  simp only [List.nil_append, List.drop_zero, Nat.zero_add] at e1 e2 e3 e4
  refine ⟨{ st1 with oss := st1.oss ++ format.drop st1.pos }, ?_, e3, e4⟩
  simp [formatBody, e1, cppSubstrFrom, Nat.not_lt.2 e2]

/-- The whole formatted line: prefix, substituted template, unused arguments, newline. -/
theorem fromatMessage_spec (now format : CppString) (args : List CppString) :
    fromatMessage now format args =
      some (['['] ++ now ++ [']', '\t'] ++
        (substituteSpec format args ++ surplusSpec format args ++ ['\n'])) := by
  obtain ⟨st, e1, e2, e3⟩ := formatBody_spec format args
  simp only [fromatMessage, e1, surplusLoop_eq, surplusSpec]
  by_cases hlt : st.arg_index < args.length
  · have hk : st.arg_index = countPlaceholders format := by omega
    rw [hk] at hlt
    simp [hlt, e2, hk]
  · have hnil : args.drop (countPlaceholders format) = [] :=
      List.drop_eq_nil_of_le (by omega)
    simp [hlt, e2, hnil]

/-- C6 (placeholder substitution).  The scan of `fromatMessage` always completes; the text it
leaves between the `"[" ++ now ++ "]\t"` prefix and the unused-argument suffix is the template
with the i-th placeholder of a left-to-right non-overlapping scan replaced by the i-th argument
while arguments remain, and kept literally afterwards; inserted text is not rescanned.
Instances: `"a={} b={}"` with `"1", "2"` gives `a=1 b=2`; `"{} {} {}"` with `"x"` gives
`x {} {}`; `"{}{}"` with `"{}", "y"` gives `{}y`. -/
theorem C6_placeholder_substitution (now format : CppString) (args : List CppString) :
    (∃ st, formatBody format args = some st ∧ st.oss = substituteSpec format args ∧
      fromatMessage now format args =
        some (['['] ++ now ++ [']', '\t'] ++
          (st.oss ++ ((args.drop st.arg_index).map (fun a => ' ' :: a)).flatten ++ ['\n']))) ∧
    fromatMessage now "a=\x7b\x7d b=\x7b\x7d".toList ["1".toList, "2".toList] =
      some (['['] ++ now ++ [']', '\t'] ++ "a=1 b=2\n".toList) ∧
    fromatMessage now "\x7b\x7d \x7b\x7d \x7b\x7d".toList ["x".toList] =
      some (['['] ++ now ++ [']', '\t'] ++ "x \x7b\x7d \x7b\x7d\n".toList) ∧
    fromatMessage now "\x7b\x7d\x7b\x7d".toList ["\x7b\x7d".toList, "y".toList] =
      some (['['] ++ now ++ [']', '\t'] ++ "\x7b\x7dy\n".toList) := by
  refine ⟨?_, ?_, ?_, ?_⟩
  · obtain ⟨st, e1, e2, e3⟩ := formatBody_spec format args
    refine ⟨st, e1, e2, ?_⟩
    rw [fromatMessage_spec, e2, surplusSpec]
    by_cases hlt : countPlaceholders format < args.length
    · rw [e3, Nat.min_eq_left (Nat.le_of_lt hlt)]
    · rw [e3, Nat.min_eq_right (Nat.le_of_not_lt hlt),
        List.drop_eq_nil_of_le (Nat.le_of_not_lt hlt), List.drop_eq_nil_of_le (Nat.le_refl _)]
  · rw [fromatMessage_spec]
    have h : substituteSpec "a=\x7b\x7d b=\x7b\x7d".toList ["1".toList, "2".toList] ++
        surplusSpec "a=\x7b\x7d b=\x7b\x7d".toList ["1".toList, "2".toList] ++ ['\n']
        = "a=1 b=2\n".toList := by decide
    rw [h]
  · rw [fromatMessage_spec]
    have h : substituteSpec "\x7b\x7d \x7b\x7d \x7b\x7d".toList ["x".toList] ++
        surplusSpec "\x7b\x7d \x7b\x7d \x7b\x7d".toList ["x".toList] ++ ['\n']
        = "x \x7b\x7d \x7b\x7d\n".toList := by decide
    rw [h]
  · rw [fromatMessage_spec]
    have h : substituteSpec "\x7b\x7d\x7b\x7d".toList ["\x7b\x7d".toList, "y".toList] ++
        surplusSpec "\x7b\x7d\x7b\x7d".toList ["\x7b\x7d".toList, "y".toList] ++ ['\n']
        = "\x7b\x7dy\n".toList := by decide
    rw [h]

/-- C7 (surplus arguments).  With `k` the number of non-overlapping placeholders of the template,
the line built by `fromatMessage` is the prefix, the whole substituted template, then the
arguments from the k-th on, in order, each preceded by exactly one space, then the newline; when
there are at most `k` arguments nothing is appended.  Instance: `"no placeholders"` with
`"extra"` gives `no placeholders extra`. -/
theorem C7_surplus_arguments (now format : CppString) (args : List CppString) :
    fromatMessage now format args =
      some (['['] ++ now ++ [']', '\t'] ++
        (substituteSpec format args ++
          ((args.drop (countPlaceholders format)).map (fun a => ' ' :: a)).flatten ++ ['\n'])) ∧
    (args.length ≤ countPlaceholders format →
      fromatMessage now format args =
        some (['['] ++ now ++ [']', '\t'] ++ (substituteSpec format args ++ ['\n']))) ∧
    fromatMessage now "no placeholders".toList ["extra".toList] =
      some (['['] ++ now ++ [']', '\t'] ++ "no placeholders extra\n".toList) := by
  refine ⟨fromatMessage_spec now format args, fun hle => ?_, ?_⟩
  · rw [fromatMessage_spec, surplusSpec, List.drop_eq_nil_of_le hle]
    simp
  · rw [fromatMessage_spec]
    have h : substituteSpec "no placeholders".toList ["extra".toList] ++
        surplusSpec "no placeholders".toList ["extra".toList] ++ ['\n']
        = "no placeholders extra\n".toList := by decide
    rw [h]

/-- C7 at a template with one placeholder and one argument: nothing is appended. -/
theorem C7_surplus_arguments_witness :
    ["x".toList].length ≤ countPlaceholders "v=\x7b\x7d".toList ∧
    fromatMessage "T".toList "v=\x7b\x7d".toList ["x".toList] =
      some (['['] ++ "T".toList ++ [']', '\t'] ++
        (substituteSpec "v=\x7b\x7d".toList ["x".toList] ++ ['\n'])) :=
  ⟨by decide,
   (C7_surplus_arguments "T".toList "v=\x7b\x7d".toList ["x".toList]).2.1 (by decide)⟩

/-- C8, as the claim states it, fails: the record pushed for a DEBUG call with template `x` at
time `t` is not `"[DEBUG]" TAB "[t]" TAB "x" NEWLINE`; two spaces stand before the first TAB. -/
theorem C8_counterexample :
    ((Logger.new "f".toList false).log "t".toList LogLevel.DEBUG "x".toList []).map
        (fun s => s.log_queue_.queue_) ≠ some ["[DEBUG]\t[t]\tx\n".toList] ∧
    ((Logger.new "f".toList false).log "t".toList LogLevel.DEBUG "x".toList []).map
        (fun s => s.log_queue_.queue_) = some ["[DEBUG]  \t[t]\tx\n".toList] := by
  decide

/-- C8, amended.  For every level, template and argument list, `Logger::log` returns and pushes
exactly one record: `"[LEVEL]"`, two spaces and one TAB, `"[" ++ now ++ "]"`, one TAB, the
formatted message (substituted template and unused arguments), one newline. -/
theorem C8_record_layout (s : Logger) (now : CppString) (level : LogLevel) (format : CppString)
    (args : List CppString) :
    s.log now level format args =
      some { s with log_queue_ := (s.log_queue_.push
        (['['] ++ level.name ++ [']'] ++ [' ', ' ', '\t'] ++ (['['] ++ now ++ [']']) ++ ['\t'] ++
          (substituteSpec format args ++ surplusSpec format args) ++ ['\n'])) } := by
  simp only [Logger.log, Logger.process, fromatMessage_spec]
  cases level <;> simp [levelTag, LogLevel.name]

/-! ## Decimal rendering of the rotation index -/

theorem digitChar_inj_lt : ∀ a < 10, ∀ b < 10, Nat.digitChar a = Nat.digitChar b → a = b := by
  decide

theorem toDigitsCore_eq (fuel n : Nat) (ds : List Char) (hn : 0 < n) (hf : n < fuel) :
    Nat.toDigitsCore 10 fuel n ds = ((Nat.digits 10 n).reverse.map Nat.digitChar) ++ ds := by
  induction fuel generalizing n ds with
  | zero => omega
  | succ fuel ih =>
    rw [Nat.digits_def' (by norm_num) hn]
    simp only [Nat.toDigitsCore]
    by_cases h0 : n / 10 = 0
    · simp [h0]
    · have hpos : 0 < n / 10 := Nat.pos_of_ne_zero h0
      have hlt : n / 10 < fuel := by omega
      simp [h0, ih (n / 10) _ hpos hlt]

theorem decimal_pos (n : Nat) (hn : 0 < n) :
    decimal n = (Nat.digits 10 n).reverse.map Nat.digitChar := by
  simp [decimal, Nat.toDigits, toDigitsCore_eq (n + 1) n [] hn (by omega)]

theorem decimal_zero : decimal 0 = ['0'] := by decide

theorem map_digitChar_inj (l1 l2 : List Nat) (h1 : ∀ d ∈ l1, d < 10) (h2 : ∀ d ∈ l2, d < 10)
    (h : l1.map Nat.digitChar = l2.map Nat.digitChar) : l1 = l2 := by
  induction l1 generalizing l2 with
  | nil => cases l2 with
    | nil => rfl
    | cons b l2 => simp at h
  | cons a l1 ih => cases l2 with
    | nil => simp at h
    | cons b l2 =>
      simp only [List.map_cons, List.cons.injEq] at h
      have hab := digitChar_inj_lt a (h1 a (by simp)) b (h2 b (by simp)) h.1
      have := ih l2 (fun d hd => h1 d (by simp [hd])) (fun d hd => h2 d (by simp [hd])) h.2
      rw [hab, this]

theorem decimal_pos_ne_zero (k : Nat) (hk : 0 < k) : decimal k ≠ decimal 0 := by
  intro h
  rw [decimal_pos k hk, decimal_zero] at h
  have h2 : (Nat.digits 10 k).reverse = [0] :=
    map_digitChar_inj _ [0]
      (fun d hd => Nat.digits_lt_base (by norm_num) (List.mem_reverse.1 hd))
      (by simp) (by simpa using h)
  have h3 : Nat.digits 10 k = [0] := by
    have := congrArg List.reverse h2
    simpa using this
  have h4 := Nat.ofDigits_digits 10 k
  rw [h3] at h4
  simp [Nat.ofDigits] at h4
  omega

/-- Distinct indices are printed differently. -/
theorem decimal_injective (m n : Nat) (h : decimal m = decimal n) : m = n := by
  rcases Nat.eq_zero_or_pos m with rfl | hm
  · rcases Nat.eq_zero_or_pos n with rfl | hn
    · rfl
    · exact absurd h.symm (decimal_pos_ne_zero n hn)
  · rcases Nat.eq_zero_or_pos n with rfl | hn
    · exact absurd h (decimal_pos_ne_zero m hm)
    · rw [decimal_pos m hm, decimal_pos n hn] at h
      have h2 := map_digitChar_inj _ _
        (fun d hd => Nat.digits_lt_base (by norm_num) (List.mem_reverse.1 hd))
        (fun d hd => Nat.digits_lt_base (by norm_num) (List.mem_reverse.1 hd)) h
      exact Nat.digits_inj_iff.1 (List.reverse_injective h2)

theorem rotatedName_injective (base : CppString) (i j : Nat)
    (h : rotatedName base i = rotatedName base j) : i = j := by
  simp only [rotatedName, List.append_assoc, List.append_cancel_left_eq] at h
  exact decimal_injective i j (List.append_cancel_right h)

theorem rotatedName_ne_base (base : CppString) (i : Nat) : rotatedName base i ≠ base := by
  intro h
  have := congrArg List.length h
  simp [rotatedName] at this

theorem rotatedNames_nodup (base : CppString) (n : Nat) :
    (base :: (List.range n).map (rotatedName base)).Nodup := by
  rw [List.nodup_cons]
  constructor
  · intro hmem
    obtain ⟨i, _, hi⟩ := List.mem_map.1 hmem
    exact rotatedName_ne_base base i hi
  · exact (List.nodup_range n).map (fun i j h => rotatedName_injective base i j h)

/-! ## The worker iteration -/

theorem Logger.rotateLogFile_eq (s : Logger) : s.rotateLogFile = s.rotated := by
  cases h : s.log_file_ <;> simp [Logger.rotateLogFile, Logger.rotated, h]

theorem Logger.writeRecord_fields (s : Logger) :
    s.writeRecord.current_file_size_ = s.current_file_size_ + s.msg.length ∧
    s.writeRecord.max_file_size_ = s.max_file_size_ ∧
    s.writeRecord.file_index_ = s.file_index_ ∧
    s.writeRecord.log_file_name_ = s.log_file_name_ ∧
    s.writeRecord.log_file_ =
      s.log_file_.map (fun f => { f with written := f.written ++ s.msg }) ∧
    s.writeRecord.closed_files = s.closed_files ∧
    s.writeRecord.log_queue_ = s.log_queue_ ∧
    s.writeRecord.exit_flag_ = s.exit_flag_ := by
  simp only [Logger.writeRecord, Logger.writeFile]
  split_ifs <;> exact ⟨rfl, rfl, rfl, rfl, rfl, rfl, rfl, rfl⟩

/-- What `writeRecord` leaves alone besides the fields above. -/
theorem Logger.writeRecord_env (s : Logger) :
    s.writeRecord.open_calls = s.open_calls ∧
    s.writeRecord.unopenable = s.unopenable ∧
    s.writeRecord.teardown = s.teardown ∧
    s.writeRecord.worker = s.worker ∧
    s.writeRecord.msg = s.msg := by
  simp only [Logger.writeRecord, Logger.writeFile]
  split_ifs <;> exact ⟨rfl, rfl, rfl, rfl, rfl⟩

/-- The iteration in which `pop` returns false: only the queue, the worker's `msg` and the
console output change. -/
theorem Logger.workerBody_false (s : Logger) (res : PopResult)
    (hp : s.log_queue_.pop s.msg = some res) (hret : res.ret = false) :
    s.workerBody =
      some { s with log_queue_ := res.queue, msg := res.msg, cout := s.cout ++ res.cout } := by
  simp [Logger.workerBody, hp, hret]

/-- The iteration in which `pop` returns true. -/
theorem Logger.workerBody_true (s : Logger) (res : PopResult)
    (hp : s.log_queue_.pop s.msg = some res) (hret : res.ret = true) :
    s.workerBody =
      some (if (Logger.writeRecord { s with log_queue_ := res.queue, msg := res.msg,
                                            cout := s.cout ++ res.cout }).current_file_size_ ≥
            (Logger.writeRecord { s with log_queue_ := res.queue, msg := res.msg,
                                         cout := s.cout ++ res.cout }).max_file_size_
        then (Logger.writeRecord { s with log_queue_ := res.queue, msg := res.msg,
                                          cout := s.cout ++ res.cout }).rotateLogFile
        else Logger.writeRecord { s with log_queue_ := res.queue, msg := res.msg,
                                         cout := s.cout ++ res.cout }) := by
  simp [Logger.workerBody, hp, hret]

/-- Every completed iteration is of one of three kinds: `pop` returned false; `pop` returned
true and the record was written without rotation; or written and followed by a rotation. -/
theorem Logger.workerBody_cases (s t : Logger) (h : s.workerBody = some t) :
    ∃ res, s.log_queue_.pop s.msg = some res ∧
      ((res.ret = false ∧
          t = { s with log_queue_ := res.queue, msg := res.msg, cout := s.cout ++ res.cout }) ∨
       (res.ret = true ∧
          ∃ s4, s4 = Logger.writeRecord { s with log_queue_ := res.queue, msg := res.msg,
                                                 cout := s.cout ++ res.cout } ∧
            ((s4.current_file_size_ < s4.max_file_size_ ∧ t = s4) ∨
             (s4.max_file_size_ ≤ s4.current_file_size_ ∧ t = s4.rotated)))) := by
  cases hp : s.log_queue_.pop s.msg with
  | none => simp [Logger.workerBody, hp] at h
  | some res =>
    refine ⟨res, rfl, ?_⟩
    cases hret : res.ret with
    | false =>
      rw [Logger.workerBody_false s res hp hret] at h
      exact Or.inl ⟨rfl, (Option.some.inj h).symm⟩
    | true =>
      rw [Logger.workerBody_true s res hp hret, Logger.rotateLogFile_eq] at h
      refine Or.inr ⟨rfl, _, rfl, ?_⟩
      have h2 := (Option.some.inj h).symm
      split at h2
      · next hge => exact Or.inr ⟨hge, h2⟩
      · next hlt => exact Or.inl ⟨Nat.lt_of_not_le hlt, h2⟩

/-! ## The closed flag of the queue -/

/-- On a queue that has been shut down `pop` returns at once, with false, and leaves the queue
empty. -/
theorem pop_shut (q : LogQueue) (msg : CppString) (hs : q.is_shutdown_ = true) :
    ∃ res, q.pop msg = some res ∧ res.ret = false ∧
      res.queue = { queue_ := [], is_shutdown_ := true } := by
  obtain ⟨l, b⟩ := q
  simp only at hs
  subst hs
  cases l with
  | nil => exact ⟨_, pop_shut_nil msg, rfl, rfl⟩
  | cons r rest => exact ⟨_, pop_shut_cons r rest msg, rfl, rfl⟩

/-- A returning `pop` never changes the closed flag. -/
theorem pop_keeps_flag (q : LogQueue) (msg : CppString) (res : PopResult)
    (h : q.pop msg = some res) : res.queue.is_shutdown_ = q.is_shutdown_ := by
  obtain ⟨l, b⟩ := q
  cases b <;> cases l <;>
    simp [pop_open_nil, pop_open_cons, pop_shut_nil, pop_shut_cons] at h <;>
    subst h <;> rfl

theorem QueueRun.shut_step_rets (r : QueueRun) (op : QueueOp) (hs : r.q.is_shutdown_ = true)
    (hr : ∀ x ∈ r.rets, x = some false) : ∀ x ∈ (r.step op).rets, x = some false := by
  cases op with
  | push log => exact hr
  | shutdown => exact hr
  | pop =>
    obtain ⟨res, hp, hret, -⟩ := pop_shut r.q r.msg hs
    simp only [QueueRun.step, hp, hret]
    intro x hx
    rcases List.mem_append.1 hx with h | h
    · exact hr x h
    · simpa using h

theorem QueueRun.shut_run_rets (r : QueueRun) (ops : List QueueOp)
    (hs : r.q.is_shutdown_ = true) (hr : ∀ x ∈ r.rets, x = some false) :
    ∀ x ∈ (r.run ops).rets, x = some false := by
  induction ops generalizing r with
  | nil => exact hr
  | cons op ops ih =>
    exact ih (r.step op) (QueueRun.shut_step r op hs).1 (QueueRun.shut_step_rets r op hs hr)

/-- C11 (shutdown is idempotent, the closed flag is true-once).  For every queue state,
`shutdown` sets the closed flag and leaves the queued records as they are, a second `shutdown`
changes nothing more, and once the flag is set no sequence of push, pop and shutdown calls
clears it. -/
theorem C11_shutdown_idempotent_true_once (q : LogQueue) :
    q.shutdown.is_shutdown_ = true ∧
    q.shutdown.queue_ = q.queue_ ∧
    q.shutdown.shutdown = q.shutdown ∧
    ∀ (msg : CppString) (ops : List QueueOp), q.is_shutdown_ = true →
      ((QueueRun.start q msg).run ops).q.is_shutdown_ = true :=
  ⟨rfl, rfl, rfl, fun msg ops hs => (QueueRun.shut_run (QueueRun.start q msg) ops hs).1⟩

/-- C11 on the queue obtained by shutting down a queue that holds `a`: after a pop, a push and
another pop the flag is still set. -/
theorem C11_shutdown_idempotent_true_once_witness :
    ((QueueRun.start (LogQueue.shutdown { queue_ := [['a']], is_shutdown_ := false }) []).run
        [QueueOp.pop, QueueOp.push ['b'], QueueOp.pop]).q.is_shutdown_ = true :=
  (C11_shutdown_idempotent_true_once
      (LogQueue.shutdown { queue_ := [['a']], is_shutdown_ := false })).2.2.2 []
    [QueueOp.pop, QueueOp.push ['b'], QueueOp.pop] rfl

/-- C16 (records pushed after shutdown are never delivered).  Start from any queue state with
the closed flag set and apply any sequence of operations.  Then every pop of the sequence
returned false and none handed back a record; and in the state reached a further push still
appends its record to the queue, while a further pop returns false and leaves the queue
empty. -/
theorem C16_pushed_after_shutdown_never_delivered (q : LogQueue) (msg : CppString)
    (ops : List QueueOp) (hs : q.is_shutdown_ = true) :
    (∀ x ∈ ((QueueRun.start q msg).run ops).rets, x = some false) ∧
    ((QueueRun.start q msg).run ops).delivered = [] ∧
    (∀ log : CppString,
      (((QueueRun.start q msg).run ops).step (QueueOp.push log)).q.queue_ =
        ((QueueRun.start q msg).run ops).q.queue_ ++ [log]) ∧
    (∃ res, ((QueueRun.start q msg).run ops).q.pop ((QueueRun.start q msg).run ops).msg
        = some res ∧ res.ret = false ∧ res.queue.queue_ = []) := by
  obtain ⟨h1, h2⟩ := QueueRun.shut_run (QueueRun.start q msg) ops hs
  refine ⟨QueueRun.shut_run_rets _ ops hs (by simp [QueueRun.start]), h2, fun log => rfl, ?_⟩
  obtain ⟨res, hp, hret, hq⟩ := pop_shut _ ((QueueRun.start q msg).run ops).msg h1
  exact ⟨res, hp, hret, by rw [hq]⟩

/-- C16 on a shut-down empty queue: `x` is pushed and then popped; the pop returns false,
nothing is delivered, and the queue is empty again. -/
theorem C16_pushed_after_shutdown_never_delivered_witness :
    (∀ x ∈ ((QueueRun.start { queue_ := [], is_shutdown_ := true } []).run
        [QueueOp.push ['x'], QueueOp.pop]).rets, x = some false) ∧
    ((QueueRun.start { queue_ := [], is_shutdown_ := true } []).run
        [QueueOp.push ['x'], QueueOp.pop]).delivered = [] ∧
    ((QueueRun.start { queue_ := [], is_shutdown_ := true } []).run
        [QueueOp.push ['x'], QueueOp.pop]).rets = [some false] ∧
    ((QueueRun.start { queue_ := [], is_shutdown_ := true } []).run
        [QueueOp.push ['x'], QueueOp.pop]).q.queue_ = [] :=
  ⟨(C16_pushed_after_shutdown_never_delivered { queue_ := [], is_shutdown_ := true } []
      [QueueOp.push ['x'], QueueOp.pop] rfl).1,
   (C16_pushed_after_shutdown_never_delivered { queue_ := [], is_shutdown_ := true } []
      [QueueOp.push ['x'], QueueOp.pop] rfl).2.1,
   by decide, by decide⟩

/-- To show a property of the state after a worker step it is enough to show it for the state
itself, for the state with another worker position, and for every completed iteration. -/
theorem Logger.workerStep_ind (P : Logger → Prop) (s : Logger)
    (hw : ∀ w : WorkerPc, P { s with worker := w })
    (hb : ∀ t, s.workerBody = some t → P { t with worker := .loopTest }) :
    P s.workerStep := by
  have henter : P s.enterPop := by
    unfold Logger.enterPop
    cases hbody : s.workerBody with
    | none => exact hw .inPop
    | some t => exact hb t hbody
  have hself : P s := hw s.worker
  unfold Logger.workerStep
  cases hpc : s.worker with
  | finished => exact hself
  | inPop => exact henter
  | loopTest =>
    simp only
    split
    · exact henter
    · exact hw .finished

/-- The worker step that pops record `r` from an open queue: the state `s4` after the write,
then the rotation test. -/
theorem Logger.workerStep_write (s : Logger) (r : CppString) (rest : List CppString)
    (hq : s.log_queue_ = { queue_ := r :: rest, is_shutdown_ := false })
    (hrun : s.worker = .inPop ∨ (s.worker = .loopTest ∧ s.exit_flag_ = false)) :
    ∃ s4 : Logger,
      s4 = Logger.writeRecord { s with log_queue_ := { queue_ := rest, is_shutdown_ := false },
                                       msg := r, cout := s.cout ++ [] } ∧
      s.workerStep =
        (if s4.current_file_size_ ≥ s4.max_file_size_ then
          { s4.rotated with worker := .loopTest }
         else { s4 with worker := .loopTest }) := by
  refine ⟨_, rfl, ?_⟩
  have hb := Logger.workerBody_true s _ (by rw [hq]; exact pop_open_cons r rest s.msg) rfl
  simp only [Logger.rotateLogFile_eq] at hb
  have hstep : s.workerStep = s.enterPop := by
    rcases hrun with h | ⟨h, he⟩
    · simp [Logger.workerStep, h]
    · simp [Logger.workerStep, h, he]
  rw [hstep]
  unfold Logger.enterPop
  rw [hb]
  split_ifs <;> rfl

/-- C9, as the claim states it, fails.  With counter 3, threshold 5 and the 4-byte record
`defg` the worker rotates (the index becomes 1, the counter 0), but when the environment refuses
to open `b_0.log` no file is open afterwards: the file named `b_0.log` has not been opened. -/
theorem C9_counterexample :
    ({ exampleLogger with
        current_file_size_ := 3
        log_queue_ := { queue_ := ["defg".toList, "h".toList], is_shutdown_ := false }
        unopenable := ["b_0.log".toList] } : Logger).workerStep.file_index_ = 1 ∧
    ({ exampleLogger with
        current_file_size_ := 3
        log_queue_ := { queue_ := ["defg".toList, "h".toList], is_shutdown_ := false }
        unopenable := ["b_0.log".toList] } : Logger).workerStep.log_file_ = none ∧
    ({ exampleLogger with
        current_file_size_ := 3
        log_queue_ := { queue_ := ["defg".toList, "h".toList], is_shutdown_ := false }
        unopenable := ["b_0.log".toList] } : Logger).workerStep.log_file_ ≠
      some { name := "b_0.log".toList, written := [] } := by
  refine ⟨by decide, by decide, by decide⟩

/-- C9, amended.  Take the worker step that pops and writes record `r`, with byte counter `c`,
threshold `T` and rotation index `i` before the step, where `i < INT_MAX` and
`c + r.length < 2^64` (the range in which the `int` and `size_t` arithmetic of the code does not
overflow; the index and the counter are then within that range after the step as well).  The index advances exactly when
`T <= c + r.length`; in that case `open` is called exactly once, on
`base ++ "_" ++ decimal i ++ ".log"`, which is the current, empty file afterwards if the
environment lets it be opened and leaves the stream closed otherwise, the index is `i + 1` and
the byte counter is 0; otherwise the counter is `c + r.length`, the index is unchanged, `open`
is not called and the current file is the one written to. -/
theorem C9_rotation_trigger (s : Logger) (r : CppString) (rest : List CppString)
    (hq : s.log_queue_ = { queue_ := r :: rest, is_shutdown_ := false })
    (hrun : s.worker = .inPop ∨ (s.worker = .loopTest ∧ s.exit_flag_ = false))
    (hidx : s.file_index_ < INT_MAX)
    (hsize : s.current_file_size_ + r.length < 2 ^ 64) :
    (s.workerStep.file_index_ ≤ INT_MAX ∧ s.workerStep.current_file_size_ < 2 ^ 64) ∧
    (s.workerStep.file_index_ = s.file_index_ + 1 ↔
      s.max_file_size_ ≤ s.current_file_size_ + r.length) ∧
    (s.max_file_size_ ≤ s.current_file_size_ + r.length →
      s.workerStep.openedNames =
        s.openedNames ++ [rotatedName s.log_file_name_ s.file_index_] ∧
      s.workerStep.log_file_ =
        (if rotatedName s.log_file_name_ s.file_index_ ∈ s.unopenable then none
         else some { name := rotatedName s.log_file_name_ s.file_index_, written := [] }) ∧
      s.workerStep.file_index_ = s.file_index_ + 1 ∧
      s.workerStep.current_file_size_ = 0) ∧
    (s.current_file_size_ + r.length < s.max_file_size_ →
      s.workerStep.openedNames = s.openedNames ∧
      s.workerStep.log_file_ =
        s.log_file_.map (fun f => { f with written := f.written ++ r }) ∧
      s.workerStep.file_index_ = s.file_index_ ∧
      s.workerStep.current_file_size_ = s.current_file_size_ + r.length) := by
  obtain ⟨s4, hs4, hstep⟩ := Logger.workerStep_write s r rest hq hrun
  have f := Logger.writeRecord_fields
    { s with log_queue_ := { queue_ := rest, is_shutdown_ := false }, msg := r,
             cout := s.cout ++ [] }
  have e := Logger.writeRecord_env
    { s with log_queue_ := { queue_ := rest, is_shutdown_ := false }, msg := r,
             cout := s.cout ++ [] }
  rw [← hs4] at f e
  simp only at f e
  obtain ⟨hc, hmax, hi, hn, hf, -, -, -⟩ := f
  obtain ⟨hoc, hun, -, -, -⟩ := e
  by_cases hge : s.max_file_size_ ≤ s.current_file_size_ + r.length
  · have hcond : s4.current_file_size_ ≥ s4.max_file_size_ := by rw [hc, hmax]; exact hge
    rw [if_pos hcond] at hstep
    have e1 : s.workerStep.file_index_ = s.file_index_ + 1 := by
      rw [hstep]; simp [Logger.rotated, hi]
    have e2 : s.workerStep.current_file_size_ = 0 := by rw [hstep]; simp [Logger.rotated]
    refine ⟨⟨by rw [e1]; omega, by rw [e2]; exact Nat.two_pow_pos 64⟩,
      ⟨fun _ => hge, fun _ => e1⟩, fun _ => ⟨?_, ?_, e1, e2⟩,
      fun hlt2 => absurd hge (by omega)⟩
    · rw [hstep]; simp [Logger.rotated, Logger.openedNames, hoc, hn, hi]
    · rw [hstep]; simp [Logger.rotated, hn, hi, hun]
  · have hcond : ¬ s4.current_file_size_ ≥ s4.max_file_size_ := by rw [hc, hmax]; exact hge
    rw [if_neg hcond] at hstep
    have e1 : s.workerStep.file_index_ = s.file_index_ := by rw [hstep]; simp [hi]
    have e2 : s.workerStep.current_file_size_ = s.current_file_size_ + r.length := by
      rw [hstep]; simp [hc]
    refine ⟨⟨by rw [e1]; omega, by rw [e2]; exact hsize⟩,
      ⟨fun h => absurd h (by omega), fun h => absurd h hge⟩, fun h => absurd h hge,
      fun _ => ⟨?_, ?_, e1, e2⟩⟩
    · rw [hstep]; simp [Logger.openedNames, hoc]
    · rw [hstep]; simp [hf]

/-- The amended C9 on the example logger with the counter at 3: writing `defg` reaches the
threshold 5, so the step rotates to `b_0.log`, which the environment lets it open. -/
theorem C9_rotation_trigger_witness :
    ({ exampleLogger with
        current_file_size_ := 3
        log_queue_ := { queue_ := ["defg".toList, "h".toList], is_shutdown_ := false }
      } : Logger).workerStep.log_file_ = some { name := "b_0.log".toList, written := [] } ∧
    ({ exampleLogger with
        current_file_size_ := 3
        log_queue_ := { queue_ := ["defg".toList, "h".toList], is_shutdown_ := false }
      } : Logger).workerStep.file_index_ = 1 ∧
    ({ exampleLogger with
        current_file_size_ := 3
        log_queue_ := { queue_ := ["defg".toList, "h".toList], is_shutdown_ := false }
      } : Logger).workerStep.current_file_size_ = 0 :=
  ((C9_rotation_trigger
      { exampleLogger with
        current_file_size_ := 3
        log_queue_ := { queue_ := ["defg".toList, "h".toList], is_shutdown_ := false } }
      "defg".toList ["h".toList] rfl (Or.inr ⟨rfl, rfl⟩) (by decide) (by decide)).2.2.1
    (by decide)).2

/-! ## Consuming a queue of records -/

theorem Logger.SameFiles.refl (s : Logger) : s.SameFiles s := ⟨rfl, rfl, rfl⟩

theorem Logger.SameFiles.trans {s t u : Logger} (h1 : s.SameFiles t) (h2 : t.SameFiles u) :
    s.SameFiles u :=
  ⟨h2.1.trans h1.1, h2.2.1.trans h1.2.1, h2.2.2.trans h1.2.2⟩

theorem Logger.SameFiles.namesOk_of_same {s t : Logger} (h : s.SameFiles t) (hs : s.NamesOk) :
    t.NamesOk := by
  unfold Logger.NamesOk at *
  rw [h.1, h.2.1, h.2.2, hs]

theorem Logger.Rotated.namesOk_of_rotated {s t : Logger} (h : s.Rotated t) (hs : s.NamesOk) :
    t.NamesOk := by
  unfold Logger.NamesOk at *
  rw [h.1, h.2.1, h.2.2, hs, List.range_succ]
  simp

theorem Logger.writeRecord_sameFiles (s : Logger) : s.SameFiles s.writeRecord :=
  ⟨(Logger.writeRecord_fields s).2.2.2.1, (Logger.writeRecord_env s).1,
   (Logger.writeRecord_fields s).2.2.1⟩

theorem Logger.workerBody_files (s t : Logger) (h : s.workerBody = some t) :
    s.SameFiles t ∨ s.Rotated t := by
  obtain ⟨res, -, hcase⟩ := Logger.workerBody_cases s t h
  rcases hcase with ⟨-, rfl⟩ | ⟨-, s4, hs4, hrest⟩
  · exact Or.inl ⟨rfl, rfl, rfl⟩
  · have hsame : s.SameFiles s4 := by
      rw [hs4]
      exact Logger.SameFiles.trans ⟨rfl, rfl, rfl⟩ (Logger.writeRecord_sameFiles _)
    rcases hrest with ⟨-, rfl⟩ | ⟨-, rfl⟩
    · exact Or.inl hsame
    · right
      refine ⟨hsame.1, ?_, ?_⟩
      · show s4.open_calls ++ _ = _
        rw [← hsame.1, ← hsame.2.2]
        exact congrArg (· ++ _) hsame.2.1
      · show s4.file_index_ + 1 = _
        rw [hsame.2.2]

/-- A worker iteration on a queue that has been shut down: `pop` returns false, and only the
queue, the worker's `msg` and the console output change. -/
theorem Logger.workerBody_shut (s : Logger) (hs : s.log_queue_.is_shutdown_ = true) :
    ∃ res, s.log_queue_.pop s.msg = some res ∧ res.ret = false ∧
      res.queue = { queue_ := [], is_shutdown_ := true } ∧
      s.workerBody =
        some { s with log_queue_ := res.queue, msg := res.msg, cout := s.cout ++ res.cout } := by
  obtain ⟨res, hp, hret, hq⟩ := pop_shut s.log_queue_ s.msg hs
  exact ⟨res, hp, hret, hq, Logger.workerBody_false s res hp hret⟩

theorem Logger.workerStep_files (s : Logger) :
    s.SameFiles s.workerStep ∨ s.Rotated s.workerStep := by
  refine Logger.workerStep_ind (fun t => s.SameFiles t ∨ s.Rotated t) s
    (fun w => Or.inl ⟨rfl, rfl, rfl⟩) (fun t hb => ?_)
  rcases Logger.workerBody_files s t hb with h | h
  · exact Or.inl ⟨h.1, h.2.1, h.2.2⟩
  · exact Or.inr ⟨h.1, h.2.1, h.2.2⟩

theorem Logger.workerStep_shut (s : Logger) (hs : s.log_queue_.is_shutdown_ = true) :
    s.SameFiles s.workerStep ∧ s.workerStep.log_queue_.is_shutdown_ = true := by
  refine Logger.workerStep_ind
    (fun t => s.SameFiles t ∧ t.log_queue_.is_shutdown_ = true) s
    (fun w => ⟨⟨rfl, rfl, rfl⟩, hs⟩) (fun t hb => ?_)
  obtain ⟨res, -, -, hq, hbody⟩ := Logger.workerBody_shut s hs
  rw [hbody] at hb
  cases hb
  exact ⟨⟨rfl, rfl, rfl⟩, by simp [hq]⟩

theorem Logger.runWorker_shut (n : Nat) (s : Logger) (hs : s.log_queue_.is_shutdown_ = true) :
    s.SameFiles (s.runWorker n) ∧ (s.runWorker n).log_queue_.is_shutdown_ = true := by
  induction n generalizing s with
  | zero => exact ⟨Logger.SameFiles.refl s, hs⟩
  | succ n ih =>
    unfold Logger.runWorker
    split
    · exact ⟨Logger.SameFiles.refl s, hs⟩
    · obtain ⟨h1, h2⟩ := Logger.workerStep_shut s hs
      obtain ⟨h3, h4⟩ := ih s.workerStep h2
      exact ⟨h1.trans h3, h4⟩

theorem Logger.closeUdp_files (s : Logger) : s.SameFiles s.closeUdp := by
  unfold Logger.closeUdp
  split <;> exact ⟨rfl, rfl, rfl⟩

/-- Closing the file and the socket, the last statements of the destructor. -/
theorem Logger.closeAll_files (t : Logger) :
    t.SameFiles (match t.log_file_ with
      | some f => { t with log_file_ := none, closed_files := t.closed_files ++ [f] }
      | none => t).closeUdp := by
  refine Logger.SameFiles.trans ?_ (Logger.closeUdp_files _)
  cases t.log_file_ <;> exact ⟨rfl, rfl, rfl⟩

theorem Logger.destroy_files (s : Logger) : s.SameFiles s.destroy := by
  unfold Logger.destroy
  obtain ⟨h1, -⟩ := Logger.runWorker_shut 2
    { s with exit_flag_ := true, log_queue_ := s.log_queue_.shutdown } rfl
  have h0 : s.SameFiles { s with exit_flag_ := true, log_queue_ := s.log_queue_.shutdown } :=
    ⟨rfl, rfl, rfl⟩
  exact (h0.trans h1).trans (Logger.closeAll_files _)

/-- The four things one statement of the destructor can do. -/
theorem Logger.teardownStep_cases (s : Logger) :
    s.teardownStep = { s with exit_flag_ := true, teardown := .exitSet } ∨
    (s.teardown = .exitSet ∧
      s.teardownStep = { s with log_queue_ := s.log_queue_.shutdown, teardown := .queueShut }) ∨
    s.teardownStep = s ∨
    (s.worker = .finished ∧ s.teardown = .queueShut ∧
      s.teardownStep =
        { (match s.log_file_ with
            | some f => { s with log_file_ := none, closed_files := s.closed_files ++ [f] }
            | none => s).closeUdp with teardown := .done }) := by
  unfold Logger.teardownStep
  split
  · exact Or.inl rfl
  · next htd => exact Or.inr (Or.inl ⟨htd, rfl⟩)
  · next htd =>
    split
    · next hw => exact Or.inr (Or.inr (Or.inr ⟨hw, htd, rfl⟩))
    · exact Or.inr (Or.inr (Or.inl rfl))
  · exact Or.inr (Or.inr (Or.inl rfl))

theorem Logger.teardownStep_files (s : Logger) : s.SameFiles s.teardownStep := by
  unfold Logger.teardownStep
  cases s.teardown with
  | notStarted => exact ⟨rfl, rfl, rfl⟩
  | exitSet => exact ⟨rfl, rfl, rfl⟩
  | done => exact ⟨rfl, rfl, rfl⟩
  | queueShut =>
    simp only
    split
    · cases hf : s.log_file_ <;> simp only [Logger.closeUdp] <;> split <;>
        exact ⟨rfl, rfl, rfl⟩
    · exact ⟨rfl, rfl, rfl⟩

/-- A `log` call only pushes one record onto the queue. -/
theorem Logger.step_log (s : Logger) (now : CppString) (logLevel : LogLevel)
    (format : CppString) (args_strs : List CppString) :
    ∃ record : CppString, s.step (LoggerOp.log now logLevel format args_strs) =
      { s with log_queue_ := s.log_queue_.push record } := by
  simp only [Logger.step, Logger.log, Logger.process, fromatMessage_spec, Option.getD_some]
  exact ⟨_, rfl⟩

theorem Logger.step_files (s : Logger) (op : LoggerOp) :
    s.SameFiles (s.step op) ∨ s.Rotated (s.step op) := by
  cases op with
  | log now logLevel format args_strs =>
    obtain ⟨record, hlog⟩ := Logger.step_log s now logLevel format args_strs
    rw [hlog]
    exact Or.inl ⟨rfl, rfl, rfl⟩
  | log_exit => exact Or.inl ⟨rfl, rfl, rfl⟩
  | logToUdp ip port sock =>
    left
    simp only [Logger.step, Logger.logToUdp]
    split <;> exact ⟨rfl, rfl, rfl⟩
  | closeUdp => exact Or.inl (Logger.closeUdp_files s)
  | workerStep => exact Logger.workerStep_files s
  | destroy => exact Or.inl (Logger.destroy_files s)
  | teardownStep => exact Or.inl (Logger.teardownStep_files s)

theorem Logger.run_namesOk (s : Logger) (ops : List LoggerOp) (hs : s.NamesOk) :
    (s.run ops).NamesOk ∧ (s.run ops).log_file_name_ = s.log_file_name_ := by
  induction ops generalizing s with
  | nil => exact ⟨hs, rfl⟩
  | cons op ops ih =>
    have hstep : (s.step op).NamesOk ∧ (s.step op).log_file_name_ = s.log_file_name_ := by
      rcases Logger.step_files s op with h | h
      · exact ⟨h.namesOk_of_same hs, h.1⟩
      · exact ⟨h.namesOk_of_rotated hs, h.1⟩
    obtain ⟨h1, h2⟩ := ih (s.step op) hstep.1
    exact ⟨h1, h2.trans hstep.2⟩

/-- C10 (rotation index and file names).  Start from a freshly constructed logger on base file
`base` (any threshold `T`, any set `bad` of names the environment refuses to open) and apply any
sequence of events.  Then (a) the files `open` was called on so far
are `base` followed by `base_0.log`, ..., `base_(i-1).log` in this order, `i` being the rotation
index, so the k-th rotation opened `base_(k-1).log`; (b) these names are pairwise different, each
rotated name differing from `base`; (c) any further event either opens no file and keeps the
index, or opens exactly the file named after the current index and advances the index by one. -/
theorem C10_rotation_index_names (base : CppString) (console : Bool) (T : Nat)
    (bad : List CppString) (ops : List LoggerOp) :
    (Logger.run { Logger.new base console with max_file_size_ := T, unopenable := bad } ops).openedNames =
      base :: (List.range
          (Logger.run { Logger.new base console with max_file_size_ := T, unopenable := bad } ops).file_index_).map
        (rotatedName base) ∧
    (Logger.run { Logger.new base console with max_file_size_ := T, unopenable := bad } ops).openedNames.Nodup ∧
    ∀ op : LoggerOp,
      (((Logger.run { Logger.new base console with max_file_size_ := T, unopenable := bad } ops).step op).openedNames
          = (Logger.run { Logger.new base console with max_file_size_ := T, unopenable := bad } ops).openedNames ∧
        ((Logger.run { Logger.new base console with max_file_size_ := T, unopenable := bad } ops).step op).file_index_
          = (Logger.run { Logger.new base console with max_file_size_ := T, unopenable := bad } ops).file_index_) ∨
      (((Logger.run { Logger.new base console with max_file_size_ := T, unopenable := bad } ops).step op).openedNames
          = (Logger.run { Logger.new base console with max_file_size_ := T, unopenable := bad } ops).openedNames ++
            [rotatedName base
              (Logger.run { Logger.new base console with max_file_size_ := T, unopenable := bad } ops).file_index_] ∧
        ((Logger.run { Logger.new base console with max_file_size_ := T, unopenable := bad } ops).step op).file_index_
          = (Logger.run { Logger.new base console with max_file_size_ := T, unopenable := bad } ops).file_index_
            + 1) := by
  have h0 : ({ Logger.new base console with
      max_file_size_ := T, unopenable := bad } : Logger).NamesOk := by
    simp [Logger.NamesOk, Logger.new, Logger.openedNames]
  obtain ⟨hn, hb⟩ := Logger.run_namesOk _ ops h0
  have hb2 : (Logger.run { Logger.new base console with
      max_file_size_ := T, unopenable := bad } ops).log_file_name_ = base := hb
  have ha := hn
  unfold Logger.NamesOk at ha
  rw [hb2] at ha
  refine ⟨ha, ?_, fun op => ?_⟩
  · rw [ha]
    exact rotatedNames_nodup base _
  · rcases Logger.step_files _ op with h | h
    · exact Or.inl ⟨h.2.1, h.2.2⟩
    · right
      have := h.2.1
      rw [hb2] at this
      exact ⟨this, h.2.2⟩

/-! ## What a worker step leaves alone -/

theorem Logger.writeRecord_udp (s : Logger) :
    s.writeRecord.udp_sock_ = s.udp_sock_ ∧
    s.writeRecord.log_to_udp_ = s.log_to_udp_ ∧
    s.writeRecord.worker = s.worker ∧
    s.writeRecord.closed_socks = s.closed_socks ∧
    s.writeRecord.datagrams =
      (if s.log_to_udp_ && decide (s.udp_sock_ ≥ 0)
        then s.datagrams ++ [(s.udp_sock_, s.udp_addr_, s.msg)] else s.datagrams) := by
  simp only [Logger.writeRecord, Logger.writeFile]
  split_ifs <;> exact ⟨rfl, rfl, rfl, rfl, rfl⟩

/-- A worker iteration keeps the exit flag, the threshold, the socket and the mirror flag, the
destructor's position and the environment, and leaves the queue's closed flag as it is. -/
theorem Logger.workerBody_keeps (s t : Logger) (h : s.workerBody = some t) :
    t.exit_flag_ = s.exit_flag_ ∧ t.max_file_size_ = s.max_file_size_ ∧
    t.udp_sock_ = s.udp_sock_ ∧ t.log_to_udp_ = s.log_to_udp_ ∧
    t.log_queue_.is_shutdown_ = s.log_queue_.is_shutdown_ ∧
    t.closed_socks = s.closed_socks ∧ t.teardown = s.teardown ∧
    t.unopenable = s.unopenable := by
  obtain ⟨res, hp, hcase⟩ := Logger.workerBody_cases s t h
  have hflag := pop_keeps_flag _ _ res hp
  rcases hcase with ⟨-, rfl⟩ | ⟨-, s4, hs4, hrest⟩
  · exact ⟨rfl, rfl, rfl, rfl, hflag, rfl, rfl, rfl⟩
  · have f := Logger.writeRecord_fields
      { s with log_queue_ := res.queue, msg := res.msg, cout := s.cout ++ res.cout }
    have u := Logger.writeRecord_udp
      { s with log_queue_ := res.queue, msg := res.msg, cout := s.cout ++ res.cout }
    have e := Logger.writeRecord_env
      { s with log_queue_ := res.queue, msg := res.msg, cout := s.cout ++ res.cout }
    rw [← hs4] at f u e
    simp only at f u e
    have key : s4.exit_flag_ = s.exit_flag_ ∧ s4.max_file_size_ = s.max_file_size_ ∧
        s4.udp_sock_ = s.udp_sock_ ∧ s4.log_to_udp_ = s.log_to_udp_ ∧
        s4.log_queue_.is_shutdown_ = s.log_queue_.is_shutdown_ ∧
        s4.closed_socks = s.closed_socks ∧ s4.teardown = s.teardown ∧
        s4.unopenable = s.unopenable :=
      ⟨f.2.2.2.2.2.2.2, f.2.1, u.1, u.2.1, by rw [f.2.2.2.2.2.2.1]; exact hflag, u.2.2.2.1,
        e.2.2.1, e.2.1⟩
    rcases hrest with ⟨-, rfl⟩ | ⟨-, rfl⟩
    · exact key
    · exact key

/-- A worker iteration made with a socket handle below zero sends no datagram. -/
theorem Logger.workerBody_no_datagram (s t : Logger) (h : s.workerBody = some t)
    (hsock : s.udp_sock_ < 0) : t.datagrams = s.datagrams := by
  obtain ⟨res, hp, hcase⟩ := Logger.workerBody_cases s t h
  rcases hcase with ⟨-, rfl⟩ | ⟨-, s4, hs4, hrest⟩
  · rfl
  · have u := Logger.writeRecord_udp
      { s with log_queue_ := res.queue, msg := res.msg, cout := s.cout ++ res.cout }
    rw [← hs4] at u
    simp only at u
    have hno : s4.datagrams = s.datagrams := by
      rw [u.2.2.2.2]
      have : ¬ (s.udp_sock_ ≥ 0) := by omega
      simp [this]
    rcases hrest with ⟨-, rfl⟩ | ⟨-, rfl⟩
    · exact hno
    · exact hno

/-- One scheduling step of the worker, field by field. -/
theorem Logger.workerStep_keeps (s : Logger) :
    s.workerStep.exit_flag_ = s.exit_flag_ ∧ s.workerStep.max_file_size_ = s.max_file_size_ ∧
    s.workerStep.udp_sock_ = s.udp_sock_ ∧ s.workerStep.log_to_udp_ = s.log_to_udp_ ∧
    s.workerStep.log_queue_.is_shutdown_ = s.log_queue_.is_shutdown_ ∧
    s.workerStep.closed_socks = s.closed_socks ∧ s.workerStep.teardown = s.teardown ∧
    s.workerStep.unopenable = s.unopenable :=
  Logger.workerStep_ind
    (fun t => t.exit_flag_ = s.exit_flag_ ∧ t.max_file_size_ = s.max_file_size_ ∧
      t.udp_sock_ = s.udp_sock_ ∧ t.log_to_udp_ = s.log_to_udp_ ∧
      t.log_queue_.is_shutdown_ = s.log_queue_.is_shutdown_ ∧
      t.closed_socks = s.closed_socks ∧ t.teardown = s.teardown ∧
      t.unopenable = s.unopenable) s
    (fun _ => ⟨rfl, rfl, rfl, rfl, rfl, rfl, rfl, rfl⟩)
    (fun t hb => Logger.workerBody_keeps s t hb)

theorem Logger.workerStep_no_datagram (s : Logger) (hsock : s.udp_sock_ < 0) :
    s.workerStep.datagrams = s.datagrams :=
  Logger.workerStep_ind (fun t => t.datagrams = s.datagrams) s (fun _ => rfl)
    (fun t hb => Logger.workerBody_no_datagram s t hb hsock)

/-! ## The UDP mirror -/

theorem Logger.closeUdp_of_neg (s : Logger) (h : s.udp_sock_ < 0) : s.closeUdp = s := by
  unfold Logger.closeUdp
  rw [if_neg (by omega)]

theorem Logger.closeUdp_of_nonneg (s : Logger) (h : 0 ≤ s.udp_sock_) :
    s.closeUdp =
      { s with closed_socks := s.closed_socks ++ [s.udp_sock_], udp_sock_ := -1,
               log_to_udp_ := false } := by
  unfold Logger.closeUdp
  rw [if_pos h]

theorem Logger.closeUdp_sock_neg (s : Logger) : s.closeUdp.udp_sock_ < 0 := by
  by_cases h : 0 ≤ s.udp_sock_
  · rw [Logger.closeUdp_of_nonneg s h]
    show (-1 : Int) < 0
    omega
  · rw [Logger.closeUdp_of_neg s (by omega)]; omega

/-- C13 (UDP close).  For every logger state: closing twice gives the same state as closing
once, so the socket is handed to `close` at most once; with a handle below zero (in particular
the initial -1) `closeUdp` releases nothing and changes no field; closing an open socket hands
exactly that socket to `close` and leaves the handle at -1 and the mirror flag false; and after
`closeUdp` the worker's send condition is false, so writing a record sends no datagram. -/
theorem C13_close_udp (s : Logger) :
    s.closeUdp.closeUdp = s.closeUdp ∧
    (s.udp_sock_ < 0 → s.closeUdp = s) ∧
    (0 ≤ s.udp_sock_ →
      s.closeUdp.udp_sock_ = -1 ∧ s.closeUdp.log_to_udp_ = false ∧
      s.closeUdp.closed_socks = s.closed_socks ++ [s.udp_sock_]) ∧
    (s.closeUdp.log_to_udp_ && decide (s.closeUdp.udp_sock_ ≥ 0)) = false ∧
    s.closeUdp.writeRecord.datagrams = s.closeUdp.datagrams := by
  have hneg := Logger.closeUdp_sock_neg s
  have hcond : (s.closeUdp.log_to_udp_ && decide (s.closeUdp.udp_sock_ ≥ 0)) = false := by
    have : ¬ (s.closeUdp.udp_sock_ ≥ 0) := by omega
    simp [this]
  refine ⟨Logger.closeUdp_of_neg _ hneg, Logger.closeUdp_of_neg s, fun h => ?_, hcond, ?_⟩
  · rw [Logger.closeUdp_of_nonneg s h]
    exact ⟨rfl, rfl, rfl⟩
  · rw [(Logger.writeRecord_udp s.closeUdp).2.2.2.2, hcond]
    rfl

/-- C13 at a never-opened logger (handle -1: nothing changes) and at a logger with socket 7
open and mirroring on (socket 7 is released, handle -1, flag false). -/
theorem C13_close_udp_witness :
    (Logger.new ['f'] false).closeUdp = Logger.new ['f'] false ∧
    ((Logger.new ['f'] false).logToUdp "127.0.0.1".toList 9990 7).closeUdp.udp_sock_ = -1 ∧
    ((Logger.new ['f'] false).logToUdp "127.0.0.1".toList 9990 7).closeUdp.log_to_udp_
      = false ∧
    ((Logger.new ['f'] false).logToUdp "127.0.0.1".toList 9990 7).closeUdp.closed_socks = [7] :=
  ⟨(C13_close_udp (Logger.new ['f'] false)).2.1 (by decide),
   ((C13_close_udp ((Logger.new ['f'] false).logToUdp "127.0.0.1".toList 9990 7)).2.2.1
      (by decide))⟩

theorem Logger.runWorker_keeps_udp (n : Nat) (s : Logger) (hsock : s.udp_sock_ < 0) :
    (s.runWorker n).udp_sock_ = s.udp_sock_ ∧ (s.runWorker n).datagrams = s.datagrams := by
  induction n generalizing s with
  | zero => exact ⟨rfl, rfl⟩
  | succ n ih =>
    unfold Logger.runWorker
    split
    · exact ⟨rfl, rfl⟩
    · have h3 := (Logger.workerStep_keeps s).2.2.1
      obtain ⟨i1, i2⟩ := ih s.workerStep (by rw [h3]; exact hsock)
      exact ⟨i1.trans h3, i2.trans (Logger.workerStep_no_datagram s hsock)⟩

/-- An event that does not create a socket, met with a handle below zero, keeps the handle below
zero and sends nothing. -/
theorem Logger.step_no_datagram (s : Logger) (op : LoggerOp) (hsock : s.udp_sock_ < 0)
    (hop : ∀ ip port sock, op = LoggerOp.logToUdp ip port sock → sock < 0) :
    (s.step op).udp_sock_ < 0 ∧ (s.step op).datagrams = s.datagrams := by
  cases op with
  | log now logLevel format args_strs =>
    obtain ⟨record, hlog⟩ := Logger.step_log s now logLevel format args_strs
    rw [hlog]
    exact ⟨hsock, rfl⟩
  | log_exit => exact ⟨hsock, rfl⟩
  | logToUdp ip port sock =>
    have hs := hop ip port sock rfl
    simp only [Logger.step, Logger.logToUdp]
    rw [if_pos hs]
    exact ⟨hs, rfl⟩
  | closeUdp =>
    simp only [Logger.step]
    rw [Logger.closeUdp_of_neg s hsock]
    exact ⟨hsock, rfl⟩
  | workerStep =>
    simp only [Logger.step]
    rw [(Logger.workerStep_keeps s).2.2.1]
    exact ⟨hsock, Logger.workerStep_no_datagram s hsock⟩
  | destroy =>
    simp only [Logger.step, Logger.destroy]
    obtain ⟨h1, h2⟩ := Logger.runWorker_keeps_udp 2
      { s with exit_flag_ := true, log_queue_ := s.log_queue_.shutdown } hsock
    have key : ∀ t : Logger, t.udp_sock_ < 0 →
        (match t.log_file_ with
          | some f => { t with log_file_ := none, closed_files := t.closed_files ++ [f] }
          | none => t).closeUdp.udp_sock_ = t.udp_sock_ ∧
        (match t.log_file_ with
          | some f => { t with log_file_ := none, closed_files := t.closed_files ++ [f] }
          | none => t).closeUdp.datagrams = t.datagrams := by
      intro t ht
      cases hf : t.log_file_ with
      | none => simp only; rw [Logger.closeUdp_of_neg t ht]; exact ⟨rfl, rfl⟩
      | some f =>
        simp only
        rw [Logger.closeUdp_of_neg _ (by exact ht)]
        exact ⟨rfl, rfl⟩
    obtain ⟨k1, k2⟩ := key _ (by rw [h1]; exact hsock)
    exact ⟨by rw [k1, h1]; exact hsock, by rw [k2, h2]⟩
  | teardownStep =>
    simp only [Logger.step, Logger.teardownStep]
    cases s.teardown with
    | notStarted => exact ⟨hsock, rfl⟩
    | exitSet => exact ⟨hsock, rfl⟩
    | done => exact ⟨hsock, rfl⟩
    | queueShut =>
      simp only
      split
      · cases hf : s.log_file_ with
        | none =>
          simp only
          rw [Logger.closeUdp_of_neg s hsock]
          exact ⟨hsock, rfl⟩
        | some f =>
          simp only
          rw [Logger.closeUdp_of_neg _ (by exact hsock)]
          exact ⟨hsock, rfl⟩
      · exact ⟨hsock, rfl⟩

theorem Logger.run_no_datagram (s : Logger) (ops : List LoggerOp) (hsock : s.udp_sock_ < 0)
    (hops : ∀ op ∈ ops, ∀ ip port sock, op = LoggerOp.logToUdp ip port sock → sock < 0) :
    (s.run ops).udp_sock_ < 0 ∧ (s.run ops).datagrams = s.datagrams := by
  induction ops generalizing s with
  | nil => exact ⟨hsock, rfl⟩
  | cons op ops ih =>
    obtain ⟨h1, h2⟩ := Logger.step_no_datagram s op hsock (hops op (by simp))
    obtain ⟨h3, h4⟩ := ih (s.step op) h1 (fun o ho => hops o (by simp [ho]))
    exact ⟨h3, h4.trans h2⟩

/-- C14 (failed UDP enable leaves mirroring disabled).  When `socket` fails (returns a value
below zero) inside `logToUdp`, whatever the state before, the call only stores that value in the
handle; the worker's send condition is then false, and it stays false, with no datagram sent,
along every later sequence of events in which no socket is created successfully. -/
theorem C14_failed_udp_enable (s : Logger) (ip : CppString) (port : Nat) (sock : Int)
    (hfail : sock < 0) :
    s.logToUdp ip port sock = { s with udp_sock_ := sock } ∧
    ((s.logToUdp ip port sock).log_to_udp_ &&
      decide ((s.logToUdp ip port sock).udp_sock_ ≥ 0)) = false ∧
    ∀ ops : List LoggerOp,
      (∀ op ∈ ops, ∀ ip1 port1 sock1, op = LoggerOp.logToUdp ip1 port1 sock1 → sock1 < 0) →
      (((s.logToUdp ip port sock).run ops).log_to_udp_ &&
        decide (((s.logToUdp ip port sock).run ops).udp_sock_ ≥ 0)) = false ∧
      ((s.logToUdp ip port sock).run ops).datagrams = s.datagrams := by
  have heq : s.logToUdp ip port sock = { s with udp_sock_ := sock } := by
    simp only [Logger.logToUdp]
    rw [if_pos hfail]
  have hcond : ∀ t : Logger, t.udp_sock_ < 0 →
      (t.log_to_udp_ && decide (t.udp_sock_ ≥ 0)) = false := by
    intro t ht
    have : ¬ (t.udp_sock_ ≥ 0) := by omega
    simp [this]
  have hneg : (s.logToUdp ip port sock).udp_sock_ < 0 := by rw [heq]; exact hfail
  refine ⟨heq, hcond _ hneg, fun ops hops => ?_⟩
  obtain ⟨h1, h2⟩ := Logger.run_no_datagram _ ops hneg hops
  refine ⟨hcond _ h1, ?_⟩
  rw [h2, heq]

/-- C14 on a logger whose mirror was on with socket 7: a failed second enable (socket returns
-1) followed by a pushed record and a worker step sends no datagram. -/
theorem C14_failed_udp_enable_witness :
    ((((Logger.new ['f'] false).logToUdp "127.0.0.1".toList 9990 7).logToUdp
        "127.0.0.1".toList 9990 (-1)).run
      [LoggerOp.log ['t'] LogLevel.INFO ['x'] [], LoggerOp.workerStep]).datagrams = [] ∧
    ((Logger.new ['f'] false).logToUdp "127.0.0.1".toList 9990 7).log_to_udp_ = true :=
  ⟨((C14_failed_udp_enable ((Logger.new ['f'] false).logToUdp "127.0.0.1".toList 9990 7)
      "127.0.0.1".toList 9990 (-1) (by decide)).2.2
      [LoggerOp.log ['t'] LogLevel.INFO ['x'] [], LoggerOp.workerStep]
      (by
        intro op hop ip1 port1 sock1 h
        subst h
        simp at hop)).2,
   by decide⟩

/-! ## Teardown -/

/-- With the exit flag set and the queue shut down, one worker step brings a worker that is
testing its loop condition past the loop, and a worker that is inside `pop` back to the loop
test; neither writes, and both keep the flags. -/
theorem Logger.workerStep_stopping (s : Logger) (he : s.exit_flag_ = true)
    (hs : s.log_queue_.is_shutdown_ = true) :
    s.workerStep.exit_flag_ = true ∧ s.workerStep.log_queue_.is_shutdown_ = true ∧
    (s.worker = .finished → s.workerStep.worker = .finished) ∧
    (s.worker = .loopTest → s.workerStep.worker = .finished) ∧
    (s.worker = .inPop → s.workerStep.worker = .loopTest) := by
  obtain ⟨k1, -, -, -, k5, -, -, -⟩ := Logger.workerStep_keeps s
  refine ⟨k1.trans he, k5.trans hs, fun hw => ?_, fun hw => ?_, fun hw => ?_⟩
  · simp [Logger.workerStep, hw]
  · simp [Logger.workerStep, hw, he]
  · obtain ⟨res, -, -, -, hb⟩ := Logger.workerBody_shut s hs
    simp [Logger.workerStep, hw, Logger.enterPop, hb]

/-- With the exit flag set and the queue shut down, two steps are enough for the worker to be
past its loop: `join` returns. -/
theorem Logger.runWorker_two_finished (s : Logger) (he : s.exit_flag_ = true)
    (hs : s.log_queue_.is_shutdown_ = true) :
    (s.runWorker 2).worker = .finished ∧ (s.runWorker 2).exit_flag_ = true ∧
    (s.runWorker 2).log_queue_.is_shutdown_ = true := by
  obtain ⟨a1, a2, a3, a4, a5⟩ := Logger.workerStep_stopping s he hs
  obtain ⟨b1, b2, b3, b4, b5⟩ := Logger.workerStep_stopping s.workerStep a1 a2
  cases hw : s.worker with
  | finished => simp [Logger.runWorker, hw, he, hs]
  | loopTest =>
    have h1 := a4 hw
    simp [Logger.runWorker, hw, h1, a1, a2]
  | inPop =>
    have h1 := a5 hw
    have h2 := b4 h1
    simp [Logger.runWorker, hw, h1, h2, b1, b2]

theorem Logger.destroy_fields (s : Logger) :
    s.destroy.exit_flag_ = true ∧ s.destroy.log_queue_.is_shutdown_ = true ∧
    s.destroy.worker = .finished ∧ s.destroy.log_file_ = none ∧ s.destroy.udp_sock_ < 0 := by
  obtain ⟨h1, h2, h3⟩ := Logger.runWorker_two_finished
    { s with exit_flag_ := true, log_queue_ := s.log_queue_.shutdown } rfl rfl
  have key : ∀ t : Logger, t.worker = .finished → t.exit_flag_ = true →
      t.log_queue_.is_shutdown_ = true →
      (match t.log_file_ with
        | some f => { t with log_file_ := none, closed_files := t.closed_files ++ [f] }
        | none => t).closeUdp.exit_flag_ = true ∧
      (match t.log_file_ with
        | some f => { t with log_file_ := none, closed_files := t.closed_files ++ [f] }
        | none => t).closeUdp.log_queue_.is_shutdown_ = true ∧
      (match t.log_file_ with
        | some f => { t with log_file_ := none, closed_files := t.closed_files ++ [f] }
        | none => t).closeUdp.worker = .finished ∧
      (match t.log_file_ with
        | some f => { t with log_file_ := none, closed_files := t.closed_files ++ [f] }
        | none => t).closeUdp.log_file_ = none ∧
      (match t.log_file_ with
        | some f => { t with log_file_ := none, closed_files := t.closed_files ++ [f] }
        | none => t).closeUdp.udp_sock_ < 0 := by
    intro t hw he hs
    refine ⟨?_, ?_, ?_, ?_, Logger.closeUdp_sock_neg _⟩ <;>
      cases hf : t.log_file_ <;> simp only [Logger.closeUdp] <;> split <;> simp_all
  exact key _ h1 h2 h3

/-- A logger that has been torn down is left as it is by a second teardown. -/
theorem Logger.destroy_fixed (t : Logger) (he : t.exit_flag_ = true)
    (hs : t.log_queue_.is_shutdown_ = true) (hw : t.worker = .finished)
    (hf : t.log_file_ = none) (hsock : t.udp_sock_ < 0) : t.destroy = t := by
  have h1 : ({ t with exit_flag_ := true, log_queue_ := t.log_queue_.shutdown } : Logger) = t := by
    obtain ⟨q, f, e, c, n, m, sz, i, u, k, a, g, w, cf, co, d, cs, td, oc, un⟩ := t
    obtain ⟨l, b⟩ := q
    simp only at he hs
    subst he hs
    rfl
  simp only [Logger.destroy]
  rw [h1]
  have h2 : t.runWorker 2 = t := by simp [Logger.runWorker, hw]
  rw [h2]
  simp only [hf]
  exact Logger.closeUdp_of_neg t hsock

/-- C12, as the claim states it, fails: after `log_exit` on a freshly constructed logger the
exit flag is set but the queue's closed flag is not. -/
theorem C12_counterexample :
    (Logger.new ['f'] false).log_exit.exit_flag_ = true ∧
    (Logger.new ['f'] false).log_exit.log_queue_.is_shutdown_ = false := by
  decide

/-- C12, amended.  For every logger state: teardown (`~Logger`) leaves the exit flag set and
the queue's closed flag set; the public `log_exit` sets the exit flag only and changes nothing
else, the queue included; and calling either of them twice leaves the same state as calling it
once. -/
theorem C12_stop_protocol (s : Logger) :
    s.destroy.exit_flag_ = true ∧
    s.destroy.log_queue_.is_shutdown_ = true ∧
    s.destroy.destroy = s.destroy ∧
    s.log_exit = { s with exit_flag_ := true } ∧
    s.log_exit.log_queue_ = s.log_queue_ ∧
    s.log_exit.log_exit = s.log_exit := by
  obtain ⟨h1, h2, h3, h4, h5⟩ := Logger.destroy_fields s
  exact ⟨h1, h2, Logger.destroy_fixed _ h1 h2 h3 h4 h5, rfl, rfl, rfl⟩

/-! ## The byte counter -/

theorem Logger.workerBody_counter_lt (s t : Logger) (h : s.workerBody = some t)
    (hlt : s.current_file_size_ < s.max_file_size_) :
    t.current_file_size_ < t.max_file_size_ := by
  obtain ⟨res, -, hcase⟩ := Logger.workerBody_cases s t h
  rcases hcase with ⟨-, rfl⟩ | ⟨-, s4, hs4, hrest⟩
  · exact hlt
  · have hmax : s4.max_file_size_ = s.max_file_size_ := by
      rw [hs4]; exact (Logger.writeRecord_fields _).2.1
    rcases hrest with ⟨h4, rfl⟩ | ⟨-, rfl⟩
    · exact h4
    · show 0 < s4.max_file_size_
      rw [hmax]
      exact Nat.lt_of_le_of_lt (Nat.zero_le _) hlt

theorem Logger.workerStep_counter_lt (s : Logger)
    (hlt : s.current_file_size_ < s.max_file_size_) :
    s.workerStep.current_file_size_ < s.workerStep.max_file_size_ :=
  Logger.workerStep_ind (fun t => t.current_file_size_ < t.max_file_size_) s (fun _ => hlt)
    (fun t hb => Logger.workerBody_counter_lt s t hb hlt)

theorem Logger.workerBody_counter (s t : Logger) (h : s.workerBody = some t)
    (hc : s.CounterOk) : t.CounterOk := by
  refine ⟨Logger.workerBody_counter_lt s t h hc.1, ?_⟩
  obtain ⟨hlt, hlen⟩ := hc
  obtain ⟨res, -, hcase⟩ := Logger.workerBody_cases s t h
  rcases hcase with ⟨-, rfl⟩ | ⟨-, s4, hs4, hrest⟩
  · exact hlen
  · have f := Logger.writeRecord_fields
      { s with log_queue_ := res.queue, msg := res.msg, cout := s.cout ++ res.cout }
    rw [← hs4] at f
    simp only at f
    rcases hrest with ⟨-, rfl⟩ | ⟨-, rfl⟩
    · intro g hg
      rw [f.2.2.2.2.1] at hg
      rw [f.1]
      cases hs : s.log_file_ with
      | none => simp [hs] at hg
      | some g0 =>
        simp only [hs, Option.map_some', Option.some.injEq] at hg
        subst hg
        simp only [List.length_append]
        rw [hlen g0 hs]
    · intro g hg
      simp only [Logger.rotated] at hg ⊢
      split at hg
      · cases hg
      · cases hg
        rfl

theorem Logger.workerStep_counter (s : Logger) (hc : s.CounterOk) : s.workerStep.CounterOk :=
  Logger.workerStep_ind Logger.CounterOk s (fun _ => hc)
    (fun t hb => Logger.workerBody_counter s t hb hc)

theorem Logger.runWorker_counter (n : Nat) (s : Logger) (hc : s.CounterOk) :
    (s.runWorker n).CounterOk ∧ (s.runWorker n).max_file_size_ = s.max_file_size_ := by
  induction n generalizing s with
  | zero => exact ⟨hc, rfl⟩
  | succ n ih =>
    unfold Logger.runWorker
    split
    · exact ⟨hc, rfl⟩
    · obtain ⟨i1, i2⟩ := ih s.workerStep (Logger.workerStep_counter s hc)
      exact ⟨i1, i2.trans (Logger.workerStep_keeps s).2.1⟩

/-- Closing the file and the socket keeps the threshold and the counter invariant. -/
theorem Logger.closeAll_counter (t : Logger) (ht : t.current_file_size_ < t.max_file_size_) :
    Logger.CounterOk (match t.log_file_ with
      | some f => { t with log_file_ := none, closed_files := t.closed_files ++ [f] }
      | none => t).closeUdp ∧
    (match t.log_file_ with
      | some f => { t with log_file_ := none, closed_files := t.closed_files ++ [f] }
      | none => t).closeUdp.max_file_size_ = t.max_file_size_ := by
  cases hf : t.log_file_ <;> simp only [Logger.closeUdp] <;> split <;>
    exact ⟨⟨ht, fun f h => by simp_all⟩, rfl⟩

/-- Every event keeps the threshold and the counter invariant. -/
theorem Logger.step_counter (s : Logger) (op : LoggerOp) (hc : s.CounterOk) :
    (s.step op).CounterOk ∧ (s.step op).max_file_size_ = s.max_file_size_ := by
  cases op with
  | log now logLevel format args_strs =>
    obtain ⟨record, hlog⟩ := Logger.step_log s now logLevel format args_strs
    rw [hlog]
    exact ⟨hc, rfl⟩
  | log_exit => exact ⟨hc, rfl⟩
  | logToUdp ip port sock =>
    simp only [Logger.step, Logger.logToUdp]
    split <;> exact ⟨hc, rfl⟩
  | closeUdp =>
    simp only [Logger.step, Logger.closeUdp]
    split <;> exact ⟨hc, rfl⟩
  | workerStep => exact ⟨Logger.workerStep_counter s hc, (Logger.workerStep_keeps s).2.1⟩
  | destroy =>
    obtain ⟨⟨h1, -⟩, h2⟩ := Logger.runWorker_counter 2
      { s with exit_flag_ := true, log_queue_ := s.log_queue_.shutdown } hc
    obtain ⟨k1, k2⟩ := Logger.closeAll_counter _ h1
    exact ⟨k1, k2.trans h2⟩
  | teardownStep =>
    simp only [Logger.step]
    rcases Logger.teardownStep_cases s with h | ⟨-, h⟩ | h | ⟨-, -, h⟩ <;> rw [h]
    · exact ⟨hc, rfl⟩
    · exact ⟨hc, rfl⟩
    · exact ⟨hc, rfl⟩
    · obtain ⟨k1, k2⟩ := Logger.closeAll_counter s hc.1
      exact ⟨⟨k1.1, k1.2⟩, k2⟩

theorem Logger.run_counter (s : Logger) (ops : List LoggerOp) (hc : s.CounterOk) :
    (s.run ops).CounterOk ∧ (s.run ops).max_file_size_ = s.max_file_size_ := by
  induction ops generalizing s with
  | nil => exact ⟨hc, rfl⟩
  | cons op ops ih =>
    obtain ⟨h1, h2⟩ := Logger.step_counter s op hc
    obtain ⟨h3, h4⟩ := ih (s.step op) h1
    exact ⟨h3, h4.trans h2⟩

theorem Logger.workerBody_closed_prefix (s t : Logger) (h : s.workerBody = some t) :
    s.closed_files <+: t.closed_files := by
  obtain ⟨res, -, hcase⟩ := Logger.workerBody_cases s t h
  rcases hcase with ⟨-, rfl⟩ | ⟨-, s4, hs4, hrest⟩
  · exact List.prefix_refl _
  · have hcl : s4.closed_files = s.closed_files := by
      rw [hs4]; exact (Logger.writeRecord_fields _).2.2.2.2.2.1
    rcases hrest with ⟨-, rfl⟩ | ⟨-, rfl⟩
    · rw [hcl]
    · show s.closed_files <+: s4.closed_files ++ _
      rw [hcl]
      exact List.prefix_append _ _

theorem Logger.workerStep_closed_prefix (s : Logger) :
    s.closed_files <+: s.workerStep.closed_files :=
  Logger.workerStep_ind (fun t => s.closed_files <+: t.closed_files) s
    (fun _ => List.prefix_refl _) (fun t hb => Logger.workerBody_closed_prefix s t hb)

theorem Logger.runWorker_closed_prefix (n : Nat) (s : Logger) :
    s.closed_files <+: (s.runWorker n).closed_files := by
  induction n generalizing s with
  | zero => exact List.prefix_refl _
  | succ n ih =>
    unfold Logger.runWorker
    split
    · exact List.prefix_refl _
    · exact (Logger.workerStep_closed_prefix s).trans (ih s.workerStep)

theorem Logger.closeAll_closed_prefix (t : Logger) :
    t.closed_files <+:
      (match t.log_file_ with
        | some f => { t with log_file_ := none, closed_files := t.closed_files ++ [f] }
        | none => t).closeUdp.closed_files := by
  cases hf : t.log_file_ <;> simp only [Logger.closeUdp] <;> split <;> simp

/-- No event changes a file that has been closed: the list of closed files only grows at its
end. -/
theorem Logger.step_closed_prefix (s : Logger) (op : LoggerOp) :
    s.closed_files <+: (s.step op).closed_files := by
  cases op with
  | log now logLevel format args_strs =>
    obtain ⟨record, hlog⟩ := Logger.step_log s now logLevel format args_strs
    rw [hlog]
  | log_exit => exact List.prefix_refl _
  | logToUdp ip port sock =>
    simp only [Logger.step, Logger.logToUdp]
    split <;> exact List.prefix_refl _
  | closeUdp =>
    simp only [Logger.step, Logger.closeUdp]
    split <;> exact List.prefix_refl _
  | workerStep => exact Logger.workerStep_closed_prefix s
  | destroy =>
    have h1 := Logger.runWorker_closed_prefix 2
      { s with exit_flag_ := true, log_queue_ := s.log_queue_.shutdown }
    exact h1.trans (Logger.closeAll_closed_prefix _)
  | teardownStep =>
    simp only [Logger.step]
    rcases Logger.teardownStep_cases s with h | ⟨-, h⟩ | h | ⟨-, -, h⟩ <;> rw [h]
    · exact Logger.closeAll_closed_prefix s

/-- C17 (byte-counter bound).  (a) For every state with the counter below the threshold, the
counter is below the threshold after a worker step, whatever the length of the record written.
(b) Hence in every state reached from a freshly constructed logger with threshold `T > 0`, in
any environment (`bad` being the names it refuses to open), the
counter is below `T` (and, being a natural number, at least 0), and equals the number of bytes
written to the open file.  (c) So in such a state, when a worker step writes record `r` to the
open file `f`, the file held fewer than `T` bytes before and holds fewer than `T + r.length`
bytes after that write, be it still open or closed by the rotation of that step.  (d) No
event changes a closed file, so this bound is final for a file once it is closed. -/
theorem C17_byte_counter_bound :
    (∀ s : Logger, s.current_file_size_ < s.max_file_size_ →
      s.workerStep.current_file_size_ < s.workerStep.max_file_size_ ∧
      s.workerStep.max_file_size_ = s.max_file_size_) ∧
    (∀ (base : CppString) (console : Bool) (T : Nat) (bad : List CppString)
        (ops : List LoggerOp), 0 < T →
      (Logger.run { Logger.new base console with max_file_size_ := T, unopenable := bad } ops).current_file_size_
        < T ∧
      (Logger.run { Logger.new base console with max_file_size_ := T, unopenable := bad } ops).max_file_size_
        = T ∧
      ∀ f, (Logger.run { Logger.new base console with max_file_size_ := T, unopenable := bad } ops).log_file_
          = some f →
        f.written.length =
          (Logger.run { Logger.new base console with max_file_size_ := T, unopenable := bad } ops).current_file_size_) ∧
    (∀ (base : CppString) (console : Bool) (T : Nat) (bad : List CppString)
        (ops : List LoggerOp) (r : CppString) (rest : List CppString) (f : LogFile), 0 < T →
      (Logger.run { Logger.new base console with max_file_size_ := T, unopenable := bad } ops).log_queue_
        = { queue_ := r :: rest, is_shutdown_ := false } →
      ((Logger.run { Logger.new base console with max_file_size_ := T, unopenable := bad } ops).worker = .inPop ∨
        ((Logger.run { Logger.new base console with max_file_size_ := T, unopenable := bad } ops).worker = .loopTest ∧
         (Logger.run { Logger.new base console with max_file_size_ := T, unopenable := bad } ops).exit_flag_
           = false)) →
      (Logger.run { Logger.new base console with max_file_size_ := T, unopenable := bad } ops).log_file_ = some f →
      f.written.length < T ∧
      (f.written ++ r).length < T + r.length ∧
      ({ f with written := f.written ++ r } : LogFile) ∈
        (Logger.run { Logger.new base console with max_file_size_ := T, unopenable := bad } ops).workerStep.closed_files
          ++ (Logger.run { Logger.new base console with max_file_size_ := T, unopenable := bad }
                ops).workerStep.log_file_.toList) ∧
    (∀ (s : Logger) (op : LoggerOp), s.closed_files <+: (s.step op).closed_files) := by
  have hinit : ∀ (base : CppString) (console : Bool) (T : Nat) (bad : List CppString), 0 < T →
      ({ Logger.new base console with
        max_file_size_ := T, unopenable := bad } : Logger).CounterOk := by
    intro base console T bad hT
    refine ⟨hT, fun f hf => ?_⟩
    simp only [Logger.new, Option.some.injEq] at hf
    subst hf
    rfl
  refine ⟨fun s hs => ?_, fun base console T bad ops hT => ?_,
    fun base console T bad ops r rest f hT hq hcall hf => ?_, Logger.step_closed_prefix⟩
  · exact ⟨Logger.workerStep_counter_lt s hs, (Logger.workerStep_keeps s).2.1⟩
  · obtain ⟨⟨h1, h2⟩, h3⟩ := Logger.run_counter _ ops (hinit base console T bad hT)
    have h3' : (Logger.run { Logger.new base console with
        max_file_size_ := T, unopenable := bad } ops).max_file_size_ = T := h3
    exact ⟨lt_of_lt_of_eq h1 h3', h3', h2⟩
  · obtain ⟨⟨h1, h2⟩, h3⟩ := Logger.run_counter _ ops (hinit base console T bad hT)
    have h3' : (Logger.run { Logger.new base console with
        max_file_size_ := T, unopenable := bad } ops).max_file_size_ = T := h3
    have hlen := h2 f hf
    have hlt : f.written.length < T := by rw [hlen]; exact lt_of_lt_of_eq h1 h3'
    refine ⟨hlt, by simp only [List.length_append]; omega, ?_⟩
    obtain ⟨s4, hs4, hstep⟩ := Logger.workerStep_write _ r rest hq hcall
    have hf4 := (Logger.writeRecord_fields
      { Logger.run { Logger.new base console with
          max_file_size_ := T, unopenable := bad } ops with
        log_queue_ := { queue_ := rest, is_shutdown_ := false }, msg := r,
        cout := (Logger.run { Logger.new base console with
          max_file_size_ := T, unopenable := bad } ops).cout ++ [] }).2.2.2.2.1
    rw [← hs4] at hf4
    simp only at hf4
    rw [hf] at hf4
    simp only [Option.map_some'] at hf4
    rw [hstep]
    split
    · simp [Logger.rotated, hf4]
    · simp [hf4]

/-- C17 on a fresh logger with threshold 5 after one `log` call: the queued record is 15 bytes
long, longer than the threshold; the worker step that writes it to the empty base file leaves
that file, now closed by the rotation, with 15 < 5 + 15 bytes, and the counter at 0 < 5. -/
theorem C17_byte_counter_bound_witness :
    ("[INFO]  \t[t]\tx\n".toList).length = 15 ∧
    (([] : CppString) ++ "[INFO]  \t[t]\tx\n".toList).length
      < 5 + ("[INFO]  \t[t]\tx\n".toList).length ∧
    ({ name := ['b'], written := [] ++ "[INFO]  \t[t]\tx\n".toList } : LogFile) ∈
      (Logger.run { Logger.new ['b'] false with max_file_size_ := 5 }
          [LoggerOp.log ['t'] LogLevel.INFO ['x'] []]).workerStep.closed_files ++
        (Logger.run { Logger.new ['b'] false with max_file_size_ := 5 }
          [LoggerOp.log ['t'] LogLevel.INFO ['x'] []]).workerStep.log_file_.toList ∧
    (Logger.run { Logger.new ['b'] false with max_file_size_ := 5 }
        [LoggerOp.log ['t'] LogLevel.INFO ['x'] [], LoggerOp.workerStep]).current_file_size_
      < 5 :=
  ⟨by decide,
   (C17_byte_counter_bound.2.2.1 ['b'] false 5 [] [LoggerOp.log ['t'] LogLevel.INFO ['x'] []]
      "[INFO]  \t[t]\tx\n".toList [] { name := ['b'], written := [] } (by decide) (by decide)
      (Or.inr ⟨by decide, by decide⟩) (by decide)).2.1,
   (C17_byte_counter_bound.2.2.1 ['b'] false 5 [] [LoggerOp.log ['t'] LogLevel.INFO ['x'] []]
      "[INFO]  \t[t]\tx\n".toList [] { name := ['b'], written := [] } (by decide) (by decide)
      (Or.inr ⟨by decide, by decide⟩) (by decide)).2.2,
   (C17_byte_counter_bound.2.1 ['b'] false 5 []
      [LoggerOp.log ['t'] LogLevel.INFO ['x'] [], LoggerOp.workerStep] (by decide)).1⟩

/-! ## Queue closed implies exit flag set -/

/-- The exit flag is set once the queue is closed, and once the destructor has started. -/
theorem Logger.step_closed_exit (s : Logger) (op : LoggerOp)
    (hinv : (s.log_queue_.is_shutdown_ = true → s.exit_flag_ = true) ∧
      (s.teardown ≠ .notStarted → s.exit_flag_ = true)) :
    ((s.step op).log_queue_.is_shutdown_ = true → (s.step op).exit_flag_ = true) ∧
    ((s.step op).teardown ≠ .notStarted → (s.step op).exit_flag_ = true) := by
  cases op with
  | log now logLevel format args_strs =>
    obtain ⟨record, hlog⟩ := Logger.step_log s now logLevel format args_strs
    rw [hlog]
    exact hinv
  | log_exit => exact ⟨fun _ => rfl, fun _ => rfl⟩
  | logToUdp ip port sock =>
    simp only [Logger.step, Logger.logToUdp]
    split <;> exact hinv
  | closeUdp =>
    simp only [Logger.step, Logger.closeUdp]
    split <;> exact hinv
  | workerStep =>
    obtain ⟨k1, -, -, -, k5, -, k7, -⟩ := Logger.workerStep_keeps s
    simp only [Logger.step]
    rw [k1, k5, k7]
    exact hinv
  | destroy =>
    exact ⟨fun _ => (Logger.destroy_fields s).1, fun _ => (Logger.destroy_fields s).1⟩
  | teardownStep =>
    simp only [Logger.step]
    rcases Logger.teardownStep_cases s with h | ⟨htd, h⟩ | h | ⟨-, htd, h⟩ <;> rw [h]
    · exact ⟨fun _ => rfl, fun _ => rfl⟩
    · have he : s.exit_flag_ = true := hinv.2 (by rw [htd]; decide)
      exact ⟨fun _ => he, fun _ => he⟩
    · exact hinv
    · have he : s.exit_flag_ = true := hinv.2 (by rw [htd]; decide)
      have key : (match s.log_file_ with
          | some f => { s with log_file_ := none, closed_files := s.closed_files ++ [f] }
          | none => s).closeUdp.exit_flag_ = true := by
        cases hf : s.log_file_ <;> simp only [Logger.closeUdp] <;> split <;> exact he
      exact ⟨fun _ => key, fun _ => key⟩

theorem Logger.run_closed_exit (s : Logger) (ops : List LoggerOp)
    (hinv : (s.log_queue_.is_shutdown_ = true → s.exit_flag_ = true) ∧
      (s.teardown ≠ .notStarted → s.exit_flag_ = true)) :
    (s.run ops).log_queue_.is_shutdown_ = true → (s.run ops).exit_flag_ = true := by
  induction ops generalizing s with
  | nil => exact hinv.1
  | cons op ops ih => exact ih (s.step op) (Logger.step_closed_exit s op hinv)

/-- In every state reached from a freshly constructed logger, whatever its threshold and its
environment, a closed queue comes with a set exit flag. -/
theorem Logger.reachable_closed_exit (base : CppString) (console : Bool) (T : Nat)
    (bad : List CppString) (ops : List LoggerOp) :
    (Logger.run { Logger.new base console with
        max_file_size_ := T, unopenable := bad } ops).log_queue_.is_shutdown_ = true →
    (Logger.run { Logger.new base console with
        max_file_size_ := T, unopenable := bad } ops).exit_flag_ = true :=
  Logger.run_closed_exit _ ops
    ⟨by simp [Logger.new, LogQueue.new], by simp [Logger.new]⟩

/-! ## The worker when `pop` reports closed -/

/-- The worker step in which `pop` returns false. -/
theorem Logger.workerStep_false (s : Logger) (res : PopResult)
    (hcall : s.worker = .inPop ∨ (s.worker = .loopTest ∧ s.exit_flag_ = false))
    (hp : s.log_queue_.pop s.msg = some res) (hret : res.ret = false) :
    s.workerStep =
      { s with log_queue_ := res.queue, msg := res.msg, cout := s.cout ++ res.cout,
               worker := .loopTest } := by
  have hb := Logger.workerBody_false s res hp hret
  rcases hcall with h | ⟨h, he⟩
  · simp [Logger.workerStep, Logger.enterPop, h, hb]
  · simp [Logger.workerStep, Logger.enterPop, h, he, hb]

theorem Logger.iterate_finished (n : Nat) (t : Logger) (hw : t.worker = .finished) :
    Logger.workerStep^[n] t = t := by
  induction n with
  | zero => rfl
  | succ n ih =>
    rw [Function.iterate_succ_apply]
    have : t.workerStep = t := by simp [Logger.workerStep, hw]
    rw [this, ih]

/-- The loop test of a worker that finds the exit flag set. -/
theorem Logger.workerStep_exit (t : Logger) (hw : t.worker = .loopTest)
    (he : t.exit_flag_ = true) : t.workerStep = { t with worker := .finished } := by
  simp [Logger.workerStep, hw, he]

/-- C15 (no write on closed).  Let `s` be any state reached from a freshly constructed logger
(any threshold, any environment) by `log`, `log_exit`, `logToUdp`, `closeUdp`, worker steps and
the statements of the destructor in any interleaving, in which the worker calls `pop` and gets
false.  In that step nothing is written: the open file, the closed files, the byte counter, the
rotation index, the datagrams sent and the bytes written are unchanged, and the queue is left
empty.  The worker's next step finds the loop condition false and leaves the loop, and from then
on no worker step changes anything: the records that were queued are never written. -/
theorem C15_no_write_on_closed (base : CppString) (console : Bool) (T : Nat)
    (bad : List CppString) (ops : List LoggerOp) (s : Logger) (res : PopResult)
    (hs : s = Logger.run { Logger.new base console with
      max_file_size_ := T, unopenable := bad } ops)
    (hcall : s.worker = .inPop ∨ (s.worker = .loopTest ∧ s.exit_flag_ = false))
    (hp : s.log_queue_.pop s.msg = some res) (hret : res.ret = false) :
    (s.workerStep.log_file_ = s.log_file_ ∧
      s.workerStep.closed_files = s.closed_files ∧
      s.workerStep.current_file_size_ = s.current_file_size_ ∧
      s.workerStep.file_index_ = s.file_index_ ∧
      s.workerStep.datagrams = s.datagrams ∧
      s.workerStep.allWritten = s.allWritten ∧
      s.workerStep.log_queue_.queue_ = []) ∧
    s.workerStep.workerStep = { s.workerStep with worker := .finished } ∧
    ∀ n : Nat, Logger.workerStep^[n] s.workerStep.workerStep = s.workerStep.workerStep := by
  have hstep := Logger.workerStep_false s res hcall hp hret
  obtain ⟨hshut, hq⟩ := pop_false_shut _ _ res hp hret
  have hexit : s.exit_flag_ = true := by
    rw [hs] at hshut ⊢
    exact Logger.reachable_closed_exit base console T bad ops hshut
  have he : s.workerStep.exit_flag_ = true := by rw [hstep]; exact hexit
  have hw : s.workerStep.worker = .loopTest := by rw [hstep]
  have h2 := Logger.workerStep_exit s.workerStep hw he
  refine ⟨?_, h2, fun n => Logger.iterate_finished n _ (by rw [h2])⟩
  rw [hstep]
  exact ⟨rfl, rfl, rfl, rfl, rfl, rfl, by simp [hq]⟩

/-- C15 on a run with threshold 5: the worker enters `pop` on the empty queue, a record is
logged, and the destructor sets the exit flag and shuts the queue down.  The pending `pop`
returns false: nothing is written, the queue is emptied, and the next step ends the loop. -/
theorem C15_no_write_on_closed_witness :
    ((Logger.run { Logger.new ['b'] false with max_file_size_ := 5, unopenable := [] }
        [LoggerOp.workerStep, LoggerOp.log ['t'] LogLevel.INFO ['x'] [],
         LoggerOp.teardownStep, LoggerOp.teardownStep]).log_queue_ =
      { queue_ := ["[INFO]  \t[t]\tx\n".toList], is_shutdown_ := true }) ∧
    (Logger.run { Logger.new ['b'] false with max_file_size_ := 5, unopenable := [] }
        [LoggerOp.workerStep, LoggerOp.log ['t'] LogLevel.INFO ['x'] [],
         LoggerOp.teardownStep, LoggerOp.teardownStep]).workerStep.allWritten = [] ∧
    (Logger.run { Logger.new ['b'] false with max_file_size_ := 5, unopenable := [] }
        [LoggerOp.workerStep, LoggerOp.log ['t'] LogLevel.INFO ['x'] [],
         LoggerOp.teardownStep, LoggerOp.teardownStep]).workerStep.log_queue_.queue_ = [] ∧
    (Logger.run { Logger.new ['b'] false with max_file_size_ := 5, unopenable := [] }
        [LoggerOp.workerStep, LoggerOp.log ['t'] LogLevel.INFO ['x'] [],
         LoggerOp.teardownStep, LoggerOp.teardownStep]).workerStep.workerStep.worker
      = .finished :=
  ⟨by decide,
   ((C15_no_write_on_closed ['b'] false 5 []
      [LoggerOp.workerStep, LoggerOp.log ['t'] LogLevel.INFO ['x'] [],
       LoggerOp.teardownStep, LoggerOp.teardownStep] _
      { ret := false, queue := { queue_ := [], is_shutdown_ := true },
        msg := "[INFO]  \t[t]\tx\n".toList, cout := [drainNotice "[INFO]  \t[t]\tx\n".toList] }
      rfl (Or.inl (by decide)) (by decide) rfl).1.2.2.2.2.2.1).trans (by decide),
   (C15_no_write_on_closed ['b'] false 5 []
      [LoggerOp.workerStep, LoggerOp.log ['t'] LogLevel.INFO ['x'] [],
       LoggerOp.teardownStep, LoggerOp.teardownStep] _
      { ret := false, queue := { queue_ := [], is_shutdown_ := true },
        msg := "[INFO]  \t[t]\tx\n".toList, cout := [drainNotice "[INFO]  \t[t]\tx\n".toList] }
      rfl (Or.inl (by decide)) (by decide) rfl).1.2.2.2.2.2.2,
   by
    rw [(C15_no_write_on_closed ['b'] false 5 []
      [LoggerOp.workerStep, LoggerOp.log ['t'] LogLevel.INFO ['x'] [],
       LoggerOp.teardownStep, LoggerOp.teardownStep] _
      { ret := false, queue := { queue_ := [], is_shutdown_ := true },
        msg := "[INFO]  \t[t]\tx\n".toList, cout := [drainNotice "[INFO]  \t[t]\tx\n".toList] }
      rfl (Or.inl (by decide)) (by decide) rfl).2.1]⟩

/-- C18 (closed implies exit flag).  (a) In every state reached from a freshly constructed
logger (any threshold, any environment) by `log`, `log_exit`, `logToUdp`, `closeUdp`, worker
steps and teardown, the destructor taken in one go or statement by statement in any
interleaving, if the queue's closed flag is set then the exit flag is set.  (b) Therefore in
every such state, when the worker calls `pop` and it returns false, the worker is back at its
loop test with the exit flag set, and its next step leaves the loop without touching the queue
or `msg`: `pop` is not called again.  (c) The converse fails: after `log_exit` on a freshly
constructed logger the exit flag is set while the queue is open. -/
theorem C18_closed_implies_exit :
    (∀ (base : CppString) (console : Bool) (T : Nat) (bad : List CppString)
        (ops : List LoggerOp),
      (Logger.run { Logger.new base console with
          max_file_size_ := T, unopenable := bad } ops).log_queue_.is_shutdown_ = true →
      (Logger.run { Logger.new base console with
          max_file_size_ := T, unopenable := bad } ops).exit_flag_ = true) ∧
    (∀ (base : CppString) (console : Bool) (T : Nat) (bad : List CppString)
        (ops : List LoggerOp) (s : Logger) (res : PopResult),
      s = Logger.run { Logger.new base console with
          max_file_size_ := T, unopenable := bad } ops →
      (s.worker = .inPop ∨ (s.worker = .loopTest ∧ s.exit_flag_ = false)) →
      s.log_queue_.pop s.msg = some res → res.ret = false →
      s.workerStep.worker = .loopTest ∧ s.workerStep.exit_flag_ = true ∧
      s.workerStep.workerStep.worker = .finished ∧
      s.workerStep.workerStep.log_queue_ = s.workerStep.log_queue_ ∧
      s.workerStep.workerStep.msg = s.workerStep.msg) ∧
    (∀ (log_file : CppString) (log_to_stdout : Bool),
      ((Logger.new log_file log_to_stdout).run [LoggerOp.log_exit]).exit_flag_ = true ∧
      ((Logger.new log_file log_to_stdout).run [LoggerOp.log_exit]).log_queue_.is_shutdown_
        = false) := by
  refine ⟨Logger.reachable_closed_exit, fun base console T bad ops s res hs hcall hp hret => ?_,
    fun _ _ => ⟨rfl, rfl⟩⟩
  have hstep := Logger.workerStep_false s res hcall hp hret
  have hshut := (pop_false_shut _ _ res hp hret).1
  have hexit : s.exit_flag_ = true := by
    rw [hs] at hshut ⊢
    exact Logger.reachable_closed_exit base console T bad ops hshut
  have he : s.workerStep.exit_flag_ = true := by rw [hstep]; exact hexit
  have hw : s.workerStep.worker = .loopTest := by rw [hstep]
  have h2 := Logger.workerStep_exit s.workerStep hw he
  refine ⟨hw, he, ?_, ?_, ?_⟩ <;> rw [h2]

/-- C18 on a run of a fresh logger: the worker enters `pop` on the empty queue, then the
destructor executes `exit_flag_ = true` and `log_queue_.shutdown()`.  In the state reached the
pending `pop` returns false, the worker is back at the loop test, and its next step leaves the
loop. -/
theorem C18_closed_implies_exit_witness :
    (Logger.run { Logger.new ['f'] false with max_file_size_ := 5, unopenable := [] }
        [LoggerOp.workerStep, LoggerOp.teardownStep, LoggerOp.teardownStep]).worker = .inPop ∧
    (Logger.run { Logger.new ['f'] false with max_file_size_ := 5, unopenable := [] }
        [LoggerOp.workerStep, LoggerOp.teardownStep,
         LoggerOp.teardownStep]).workerStep.worker = .loopTest ∧
    (Logger.run { Logger.new ['f'] false with max_file_size_ := 5, unopenable := [] }
        [LoggerOp.workerStep, LoggerOp.teardownStep,
         LoggerOp.teardownStep]).workerStep.workerStep.worker = .finished :=
  ⟨by decide,
   (C18_closed_implies_exit.2.1 ['f'] false 5 []
      [LoggerOp.workerStep, LoggerOp.teardownStep, LoggerOp.teardownStep] _
      { ret := false, queue := { queue_ := [], is_shutdown_ := true }, msg := [], cout := [] }
      rfl (Or.inl (by decide)) (by decide) rfl).1,
   (C18_closed_implies_exit.2.1 ['f'] false 5 []
      [LoggerOp.workerStep, LoggerOp.teardownStep, LoggerOp.teardownStep] _
      { ret := false, queue := { queue_ := [], is_shutdown_ := true }, msg := [], cout := [] }
      rfl (Or.inl (by decide)) (by decide) rfl).2.2.1⟩

/-! ## Termination of the placeholder scan -/

/-- A placeholder found from `pos` on lies at or after `pos` and wholly inside the string. -/
theorem cppFind_bounds (format : CppString) (pos p : Nat)
    (h : cppFind format placeholderText pos = some p) : pos ≤ p ∧ p + 2 ≤ format.length := by
  unfold cppFind at h
  split at h
  · cases h
  · next hle =>
    obtain ⟨mid, rest, hsplit, hp, -, -⟩ := findAux_some _ _ p h
    have hlen := congrArg List.length hsplit
    simp only [List.length_drop, List.length_append, List.length_cons] at hlen
    omega

/-- The number of iterations of the placeholder loop is the number of placeholders still ahead:
that many iterations are enough, and fewer are not. -/
theorem formatLoop_iterations (args : List CppString) (fuel : Nat) (pre suf : CppString)
    (st : FormatState) (hpos : st.pos = pre.length) :
    (countPlaceholders suf ≤ fuel →
      ∃ st1, formatLoop (pre ++ suf) args fuel
          (cppFind (pre ++ suf) placeholderText st.pos) st = some st1 ∧
        st1.pos ≤ (pre ++ suf).length) ∧
    (fuel < countPlaceholders suf →
      formatLoop (pre ++ suf) args fuel (cppFind (pre ++ suf) placeholderText st.pos) st
        = none) := by
  induction fuel generalizing pre suf st with
  | zero =>
    rw [hpos, cppFind_split]
    cases hf : findAux placeholderText suf pre.length with
    | none =>
      obtain ⟨-, h2⟩ := findAux_none suf _ hf
      exact ⟨fun _ => ⟨st, by simp [formatLoop], by simp [hpos]⟩, fun h => by omega⟩
    | some p =>
      obtain ⟨mid, rest, -, -, -, h4⟩ := findAux_some suf _ p hf
      exact ⟨fun h => by omega, fun _ => by simp [formatLoop]⟩
  | succ fuel ih =>
    rw [hpos, cppFind_split]
    cases hf : findAux placeholderText suf pre.length with
    | none =>
      obtain ⟨-, h2⟩ := findAux_none suf _ hf
      exact ⟨fun _ => ⟨st, by simp [formatLoop], by simp [hpos]⟩, fun h => by omega⟩
    | some p =>
      obtain ⟨mid, rest, rfl, hp, -, h4⟩ := findAux_some suf _ p hf
      have hsub : cppSubstr (pre ++ (mid ++ '\x7b' :: '\x7d' :: rest)) st.pos (p - st.pos)
          = some mid := by
        simp [cppSubstr, hpos, hp]
      have hsplit : pre ++ (mid ++ '\x7b' :: '\x7d' :: rest)
          = (pre ++ mid ++ placeholderText) ++ rest := by
        simp [placeholderText]
      have hlen : (pre ++ mid ++ placeholderText).length = p + 2 := by
        simp [placeholderText, hp]; omega
      simp only [formatLoop, hsub]
      by_cases hlt : st.arg_index < args.length
      · simp only [hlt, dite_true]
        obtain ⟨i1, i2⟩ := ih (pre ++ mid ++ placeholderText) rest
          { oss := st.oss ++ mid ++ args[st.arg_index], arg_index := st.arg_index + 1,
            pos := p + 2 } hlen.symm
        rw [← hsplit] at i1 i2
        exact ⟨fun h => i1 (by omega), fun h => i2 (by omega)⟩
      · simp only [hlt, dite_false]
        obtain ⟨i1, i2⟩ := ih (pre ++ mid ++ placeholderText) rest
          { oss := st.oss ++ mid ++ placeholderText, arg_index := st.arg_index,
            pos := p + 2 } hlen.symm
        rw [← hsplit] at i1 i2
        exact ⟨fun h => i1 (by omega), fun h => i2 (by omega)⟩

/-- C19 (the formatter scan terminates).  For every template and argument list: (a) whenever
`find` returns a placeholder position `p` from scan position `pos`, the next scan position
`p + 2` is strictly larger than `pos` and at most the template length; (b) the placeholder loop
started at position 0 completes within exactly as many iterations as the template has
non-overlapping placeholders (that many suffice, fewer do not), without any `substr` call
throwing, and ends at a position within the template; (c) the scan as run by `fromatMessage`
produces its result. -/
theorem C19_formatter_scan_terminates (format : CppString) (args : List CppString) :
    (∀ pos p : Nat, cppFind format placeholderText pos = some p →
      pos < p + 2 ∧ p + 2 ≤ format.length) ∧
    (∀ fuel : Nat,
      (countPlaceholders format ≤ fuel →
        ∃ st, formatLoop format args fuel (cppFind format placeholderText 0)
            { oss := [], arg_index := 0, pos := 0 } = some st ∧ st.pos ≤ format.length) ∧
      (fuel < countPlaceholders format →
        formatLoop format args fuel (cppFind format placeholderText 0)
            { oss := [], arg_index := 0, pos := 0 } = none)) ∧
    (∃ st, formatBody format args = some st) := by
  refine ⟨fun pos p h => ?_, fun fuel => ?_, ?_⟩
  · obtain ⟨h1, h2⟩ := cppFind_bounds format pos p h
    exact ⟨by omega, h2⟩
  · have := formatLoop_iterations args fuel [] format { oss := [], arg_index := 0, pos := 0 } rfl
    simpa using this
  · obtain ⟨st, h, -⟩ := formatBody_spec format args
    exact ⟨st, h⟩

/-- C19 on the templates named in the claim: the empty template and a template ending in an
opening brace need no iteration, a template of three placeholders needs three and two are not
enough; in `ab{}` the placeholder found from position 0 is at 2 and the next scan position 4 is
the template length. -/
theorem C19_formatter_scan_terminates_witness :
    countPlaceholders [] = 0 ∧
    countPlaceholders "x\x7b".toList = 0 ∧
    countPlaceholders "\x7b\x7d\x7b\x7d\x7b\x7d".toList = 3 ∧
    formatLoop "\x7b\x7d\x7b\x7d\x7b\x7d".toList [] 2
        (cppFind "\x7b\x7d\x7b\x7d\x7b\x7d".toList placeholderText 0)
        { oss := [], arg_index := 0, pos := 0 } = none ∧
    (0 < 2 + 2 ∧ 2 + 2 ≤ "ab\x7b\x7d".toList.length) :=
  ⟨by decide, by decide, by decide,
   ((C19_formatter_scan_terminates "\x7b\x7d\x7b\x7d\x7b\x7d".toList []).2.1 2).2 (by decide),
   (C19_formatter_scan_terminates "ab\x7b\x7d".toList []).1 0 2 (by decide)⟩

end CLog
